import Mathlib

/-
  Verification of the tool-orchestration core of the travel-agent backend.

  The definitions below are a shallow embedding of the Python sources:
    backend/app/service/chat.py                 (ChatService.chat_stream)
    backend/app/service/streaming.py            (StreamingService.should_stream_response)
    backend/app/service/message_processing.py   (prepare_messages, trim_history)
    backend/app/service/tool_result_formatter.py
    backend/app/mcp_tools/registry.py           (MCPToolRegistry)
    backend/app/mcp/registry.py                 (legacy MCPToolRegistry)

  Python values are modelled by the inductive type PyVal; Python dicts are
  insertion-ordered association lists; a raised exception is an `Except.error`.
  External collaborators (the LLM detection/streaming operations, the MCP
  client transport) are modelled as explicit environments supplied to the
  embedded functions, so every claim is quantified over their behaviour.
-/

namespace TravelAgent

/-- Universe of Python values: None, bool, int, str, list, dict. -/
inductive PyVal where
  | null : PyVal
  | bool (b : Bool) : PyVal
  | num (n : Int) : PyVal
  | str (s : String) : PyVal
  | arr (items : List PyVal) : PyVal
  | obj (entries : List (String × PyVal)) : PyVal

/-- Association-list lookup modelling `dict.get(key)` (first match wins). -/
def pyGet {α : Type} : List (String × α) → String → Option α
  | [], _ => none
  | (k, v) :: rest, key => if k = key then some v else pyGet rest key

/-- Python assignment `dict[key] = value` on an insertion-ordered association list. -/
def pySet {α : Type} : List (String × α) → String → α → List (String × α)
  | [], k, v => [(k, v)]
  | (k1, v1) :: rest, k, v =>
      if k1 = k then (k, v) :: rest else (k1, v1) :: pySet rest k v

/-- Python truthiness of a value. -/
def pyTruthy : PyVal → Bool
  | .null => false
  | .bool b => b
  | .num n => n != 0
  | .str s => !s.isEmpty
  | .arr items => !items.isEmpty
  | .obj entries => !entries.isEmpty

/-- Python `len(v)`; raises TypeError on unsized values. -/
def pyLen : PyVal → Except String Nat
  | .str s => .ok s.length
  | .arr items => .ok items.length
  | .obj entries => .ok entries.length
  | _ => .error "TypeError: object has no len()"

/-- Python `v == n` for an integer right-hand side (True == 1, False == 0). -/
def pyEqNum (v : PyVal) (n : Int) : Bool :=
  match v with
  | .num m => m == n
  | .bool b => (if b then (1 : Int) else 0) == n
  | _ => false

/-- Whether the first character list starts the second. -/
def charsStartWith : List Char → List Char → Bool
  | [], _ => true
  | _ :: _, [] => false
  | n :: ns, h :: hs => n == h && charsStartWith ns hs

/-- Whether the first character list occurs inside the second. -/
def charsContain (needle : List Char) : List Char → Bool
  | [] => charsStartWith needle []
  | h :: hs => charsStartWith needle (h :: hs) || charsContain needle hs

/-- Python substring test `needle in hay`. -/
def pyIn (needle hay : String) : Bool :=
  charsContain needle.toList hay.toList

/-- Escape one character for Python `repr` of a string quoted by `q`. -/
def pyEscapeChar (q c : Char) : String :=
  if c = '\\' then "\\\\"
  else if c = q then "\\" ++ q.toString
  else if c = '\n' then "\\n"
  else if c = '\r' then "\\r"
  else if c = '\t' then "\\t"
  else c.toString

/-- Python `repr` of a string (quote choice and common escapes). -/
def pyReprStr (s : String) : String :=
  let q : Char :=
    if (s.toList.any fun c => c == '\'') && !(s.toList.any fun c => c == '"') then '"'
    else '\''
  q.toString ++ String.join (s.toList.map (pyEscapeChar q)) ++ q.toString

/-- Python `repr([...])` of a list of strings, as used by
`f"{list(self.tools.keys())}"` in the registry's not-found message. -/
def pyListReprStr (names : List String) : String :=
  "[" ++ String.intercalate ", " (names.map pyReprStr) ++ "]"

mutual
/-- Python `str(v)`: strings pass unchanged, containers use `repr`. -/
def pyStrOf : PyVal → String
  | .null => "None"
  | .bool true => "True"
  | .bool false => "False"
  | .num n => toString n
  | .str s => s
  | .arr items => "[" ++ String.intercalate ", " (pyReprList items) ++ "]"
  | .obj entries => "\x7b" ++ String.intercalate ", " (pyReprObj entries) ++ "\x7d"

/-- Python `repr(v)`. -/
def pyRepr : PyVal → String
  | .null => "None"
  | .bool true => "True"
  | .bool false => "False"
  | .num n => toString n
  | .str s => pyReprStr s
  | .arr items => "[" ++ String.intercalate ", " (pyReprList items) ++ "]"
  | .obj entries => "\x7b" ++ String.intercalate ", " (pyReprObj entries) ++ "\x7d"

def pyReprList : List PyVal → List String
  | [] => []
  | v :: rest => pyRepr v :: pyReprList rest

def pyReprObj : List (String × PyVal) → List String
  | [] => []
  | (k, v) :: rest => (pyReprStr k ++ ": " ++ pyRepr v) :: pyReprObj rest
end

/-- Hex digit for JSON control-character escapes. -/
def hexDigit (n : Nat) : String :=
  String.singleton (Char.ofNat (if n < 10 then 48 + n else 87 + n))

/-- Escape a string for JSON output (ensure_ascii=False keeps unicode). -/
def jsonEscape (s : String) : String :=
  String.join (s.toList.map fun c =>
    if c = '"' then "\\\""
    else if c = '\\' then "\\\\"
    else if c = '\n' then "\\n"
    else if c = '\r' then "\\r"
    else if c = '\t' then "\\t"
    else if c.toNat < 32 then
      "\\u00" ++ hexDigit (c.toNat / 16) ++ hexDigit (c.toNat % 16)
    else c.toString)

mutual
/-- Python `json.dumps(v, ensure_ascii=False)` with the default separators. -/
def jsonDumps : PyVal → String
  | .null => "null"
  | .bool true => "true"
  | .bool false => "false"
  | .num n => toString n
  | .str s => "\"" ++ jsonEscape s ++ "\""
  | .arr items => "[" ++ String.intercalate ", " (jsonDumpsList items) ++ "]"
  | .obj entries => "\x7b" ++ String.intercalate ", " (jsonDumpsObj entries) ++ "\x7d"

def jsonDumpsList : List PyVal → List String
  | [] => []
  | v :: rest => jsonDumps v :: jsonDumpsList rest

def jsonDumpsObj : List (String × PyVal) → List String
  | [] => []
  | (k, v) :: rest => ("\"" ++ jsonEscape k ++ "\": " ++ jsonDumps v) :: jsonDumpsObj rest
end

/-- Indentation prefix used by `json.dumps(..., indent=2)`. -/
def jsonIndent (lvl : Nat) : String := String.join (List.replicate (2 * lvl) " ")

mutual
/-- Python `json.dumps(v, ensure_ascii=False, indent=2)` at nesting level `lvl`. -/
def jsonDumps2 (lvl : Nat) : PyVal → String
  | .null => "null"
  | .bool true => "true"
  | .bool false => "false"
  | .num n => toString n
  | .str s => "\"" ++ jsonEscape s ++ "\""
  | .arr [] => "[]"
  | .arr (v :: rest) =>
      "[\n" ++ String.intercalate ",\n" (jsonDumps2List (lvl + 1) (v :: rest)) ++
        "\n" ++ jsonIndent lvl ++ "]"
  | .obj [] => "\x7b\x7d"
  | .obj (e :: rest) =>
      "\x7b\n" ++ String.intercalate ",\n" (jsonDumps2Obj (lvl + 1) (e :: rest)) ++
        "\n" ++ jsonIndent lvl ++ "\x7d"

def jsonDumps2List (lvl : Nat) : List PyVal → List String
  | [] => []
  | v :: rest => (jsonIndent lvl ++ jsonDumps2 lvl v) :: jsonDumps2List lvl rest

def jsonDumps2Obj (lvl : Nat) : List (String × PyVal) → List String
  | [] => []
  | (k, v) :: rest =>
      (jsonIndent lvl ++ "\"" ++ jsonEscape k ++ "\": " ++ jsonDumps2 lvl v) ::
        jsonDumps2Obj lvl rest
end

/-- Python iteration over a value (for `enumerate(answers, 1)`); raises
TypeError on non-iterables. -/
def pyIter : PyVal → Except String (List PyVal)
  | .arr items => .ok items
  | .str s => .ok (s.toList.map fun c => .str c.toString)
  | .obj entries => .ok (entries.map fun e => .str e.1)
  | _ => .error "TypeError: object is not iterable"

/-- Python `format(v, c"2f")` used for the score in the answers formatting;
raises on non-numeric values. -/
def pyFormat2f : PyVal → Except String String
  | .num n => .ok (toString n ++ ".00")
  | .bool b => .ok ((if b then "1" else "0") ++ ".00")
  | _ => .error "TypeError: unsupported format string passed to object"

end TravelAgent

namespace TravelAgent

/-- Python `v is None`. -/
def isNull : PyVal → Bool
  | .null => true
  | _ => false

/-- The shared "no information" suggestion suffix of the formatter. -/
def noAnswersSuggestion : String :=
  "\nSuggestion: You can try using other tools to search for related information."

/-- Header of the multiple-answers success formatting. -/
def answersSuccessHeader : String :=
  "Tool returned results (you must strictly base your answer on these results, do not add other information):\n\n"

/-- Tail of the multiple-answers success formatting. -/
def answersSuccessTail : String :=
  "\n\n[Important Instructions] These are the complete answers provided by the tool. You must:\n1. Strictly base your answer on the above tool results\n2. Do not add information not present in the tool results\n3. Do not fabricate or guess any details\n4. If the tool results already fully answer the question, use these results directly\n5. If you need to reorganize the content, keep all facts and details completely consistent with the tool results\n6. If multiple results are provided, you can synthesize information from all of them, but do not add information not present in any of them\n\nPlease generate your answer based on the above tool results."

/-- Header of the single-answer success formatting. -/
def answerSuccessHeader : String :=
  "Tool returned result (you must strictly base your answer on this result, do not add other information):\n\n"

/-- Tail of the single-answer success formatting. -/
def answerSuccessTail : String :=
  "\n\n[Important Instructions] This is the complete answer provided by the tool. You must:\n1. Strictly base your answer on the above tool result\n2. Do not add information not present in the tool result\n3. Do not fabricate or guess any details\n4. If the tool result already fully answers the question, use this result directly\n5. If you need to reorganize the content, keep all facts and details completely consistent with the tool result\n\nPlease generate your answer based on the above tool result."

/-- The fixed "no results found" message of the `results` branch. -/
def noResultsZh : String :=
  "工具返回的结果：在知识库中没有找到相关信息。\n\n【重要提示】由于工具没有找到相关信息，你必须：\n1. 明确告诉用户工具没有找到相关信息\n2. 不要编造或猜测答案\n3. 如果还有其他工具可用，可以建议尝试其他工具\n4. 如果所有工具都没有找到有用信息，提醒用户联系Harry获取更具体的帮助"

/-- Header of the nonempty-`results` success formatting. -/
def resultsSuccessHeader : String :=
  "工具返回的结果（必须严格基于此结果回答，不要添加其他信息）：\n\n"

/-- Tail of the nonempty-`results` success formatting. -/
def resultsSuccessTail : String :=
  "\n\n【重要提示】这是工具提供的搜索结果。你必须：\n1. 严格基于上述工具结果来回答用户问题\n2. 从工具结果中提取相关信息并组织成清晰的回答\n3. 不要添加工具结果中没有的信息\n4. 不要编造或猜测任何细节\n5. 如果工具结果不足以完整回答问题，明确说明哪些信息缺失\n\n请基于上述工具结果生成回答。"

/-- The per-answer blocks of the answers loop in
`format_tool_result_for_llm` (`for i, result in enumerate(answers, 1)`);
a non-dict element raises AttributeError at `result.get`. -/
def formatAnswerItems (i : Nat) : List PyVal → Except String String
  | [] => .ok ""
  | .obj fields :: rest => do
      let question := (pyGet fields "matched_question").getD (.str "")
      let answer := (pyGet fields "answer").getD (.str "")
      let score := (pyGet fields "score").getD (.num 0)
      let scoreStr ← pyFormat2f score
      let block := "\n--- Result " ++ toString i ++ " (Score: " ++ scoreStr ++ ") ---\n" ++
        (if pyTruthy question then "Question: " ++ pyStrOf question ++ "\n" else "") ++
        "Answer: " ++ pyStrOf answer ++ "\n"
      let restText ← formatAnswerItems (i + 1) rest
      .ok (block ++ restText)
  | _ :: _ => .error "AttributeError: object has no attribute get"

/-- Embedding of `format_tool_result_for_llm` from
`backend/app/service/tool_result_formatter.py`.  The function is dynamically
typed in the source, so its result is a `PyVal` (the `text` branch returns the
field value unchanged); a raised exception is an `Except.error`.  The eager
`pyLen` binds model the `len(...)` calls inside the logging f-strings, which
Python evaluates unconditionally. -/
def format_tool_result_for_llm (tool_result : PyVal) (tool_name : String) : Except String PyVal :=
  match tool_result with
  | .str s => .ok (.str s)
  | .obj entries =>
    match pyGet entries "text" with
    | some v => do
        let _ ← pyLen v
        .ok v
    | none =>
      match pyGet entries "answers" with
      | some answersVal => do
          let la ← pyLen answersVal
          let count := (pyGet entries "count").getD (.num (Int.ofNat la))
          if !pyTruthy answersVal || pyEqNum count 0 then
            let message := (pyGet entries "message").getD
              (.str "No matching answers found in FAQ database.")
            .ok (.str ("Tool result: " ++ pyStrOf message ++ noAnswersSuggestion))
          else do
            let items ← pyIter answersVal
            let answersText ← formatAnswerItems 1 items
            .ok (.str (answersSuccessHeader ++ answersText ++ answersSuccessTail))
      | none =>
        if (pyGet entries "answer").isSome || (pyGet entries "found").isSome then
          let answerVal := (pyGet entries "answer").getD .null
          let isNotNone : Bool :=
            match pyGet entries "answer" with
            | some .null => false
            | some _ => true
            | none => false
          let found := (pyGet entries "found").getD (.bool isNotNone)
          if !pyTruthy found || isNull answerVal then
            let message := (pyGet entries "message").getD (.str "No matching answer found.")
            .ok (.str ("Tool result: " ++ pyStrOf message ++ noAnswersSuggestion))
          else do
            let matchedQuestion := (pyGet entries "matched_question").getD (.str "")
            let answersText :=
              (if pyTruthy matchedQuestion then
                 "Question: " ++ pyStrOf matchedQuestion ++ "\n" else "") ++
              "Answer: " ++ pyStrOf answerVal ++ "\n"
            let _ ← pyLen answerVal
            .ok (.str (answerSuccessHeader ++ answersText ++ answerSuccessTail))
        else
          match pyGet entries "results" with
          | some resultsVal =>
              if !pyTruthy resultsVal then .ok (.str noResultsZh)
              else do
                let lr ← pyLen resultsVal
                if lr == 0 then .ok (.str noResultsZh)
                else .ok (.str (resultsSuccessHeader ++ jsonDumps2 0 resultsVal ++
                                  resultsSuccessTail))
          | none => .ok (.str (jsonDumps (.obj entries)))
  | other => .ok (.str (pyStrOf other))

/-- A conversation message: a Python dict with the keys handled by the
message-processing and chat services (absent key = `none`). -/
structure PyMsg where
  role : Option String := none
  content : Option String := none
  tool_calls : Option PyVal := none
  tool_call_id : Option String := none
  name : Option String := none

/-- The "tools found nothing" indicator substrings. -/
def noInfoIndicators : List String :=
  ["没有找到", "没有找到匹配", "没有找到相关信息", "未能找到", "找不到", "无法找到"]

/-- Embedding of `check_tools_used_but_no_info`. -/
def check_tools_used_but_no_info (messages : List PyMsg) : Bool :=
  let toolMessages := messages.filter (fun m => m.role == some "tool")
  if toolMessages.isEmpty then false
  else toolMessages.any fun m =>
    let content := m.content.getD ""
    noInfoIndicators.any fun ind => pyIn ind content

/-- The "contact Harry" indicator substrings. -/
def harryIndicators : List String :=
  ["联系Harry", "联系harry", "联系 Harry", "联系 harry", "contact Harry", "contact harry"]

/-- Embedding of `response_suggests_contact_harry`. -/
def response_suggests_contact_harry (content : String) : Bool :=
  harryIndicators.any fun ind => pyIn ind content

end TravelAgent

namespace TravelAgent

/-- A Python exception: its class (RuntimeError or not) and its message
(`str(e)`). -/
structure PyExn where
  isRuntimeError : Bool
  msg : String

/-- A tool descriptor dict returned by a server's `list_tools()`
(`tool.get("name", "")`, `tool.get("description", "")`,
`tool.get("inputSchema", {})`). -/
structure ToolDict where
  name : String
  description : String
  inputSchema : PyVal

/-- Modelled from the spec: `MCPClient` (backend/app/mcp_tools/client.py is
not under src/).  Per spec section 4.1 a Backend Connection exposes
`list_tools()` and `call(name, arguments)`, each of which either returns a
value or raises; `close()` terminates the connection, and per section 4.2
(`close_all` "terminates every backend connection") a call issued on a closed
connection fails. -/
structure MCPClient where
  initResult : Option PyExn
  toolsResult : Except PyExn (List ToolDict)
  callResult : String → PyVal → Except PyExn PyVal
  closeRaises : Bool

/-- The registry's view of one client: the connection behaviour plus whether
`close()` has been issued on it. -/
structure ClientState where
  spec : MCPClient
  closed : Bool

/-- One entry of the declarative backend configuration consumed by the
registry (`server_manager.servers` plus the availability data used by
`initialize_all`): whether creating the client raised, whether the server is
local, and whether an external server is installed. -/
structure ServerSpec where
  name : String
  client : MCPClient
  createFails : Bool
  isLocal : Bool
  remoteAvailable : Bool

/-- The registry environment: the configured backends and whether the MCP SDK
module import check succeeds. -/
structure RegEnv where
  cfg : List ServerSpec
  sdkAvailable : Bool

/-- The mutable state of `MCPToolRegistry` (mcp_tools/registry.py): `tools`,
`_tool_to_server`, `_mcp_clients`, `_client_initialized`,
`_fully_initialized`. -/
structure RegistryState where
  tools : List (String × ToolDict)
  toolToServer : List (String × String)
  mcpClients : List (String × ClientState)
  clientInit : List (String × Bool)
  fullyInit : Bool

/-- Embedding of `ToolCall` (dataclass). -/
structure ToolCall where
  name : String
  arguments : PyVal
  id : Option String := none

/-- Embedding of `ToolResult` (dataclass). -/
structure ToolResult where
  tool_name : String
  success : Bool
  result : Option PyVal
  error : Option String := none

/-- Embedding of `MCPToolRegistry._create_clients` composed with `__init__`:
the fresh registry state after construction (a backend whose client creation
raises is logged and skipped; no connection is opened yet). -/
def createClients (cfg : List ServerSpec) : RegistryState :=
  { tools := []
    toolToServer := []
    mcpClients := (cfg.filter fun s => !s.createFails).map fun s => (s.name, ⟨s.client, false⟩)
    clientInit := (cfg.filter fun s => !s.createFails).map fun s => (s.name, false)
    fullyInit := false }

/-- The skip test of `initialize_all`: a non-local server whose external
installation check fails is skipped. -/
def skipServer (env : RegEnv) (serverName : String) : Bool :=
  match env.cfg.find? fun s => s.name = serverName with
  | some s => !s.isLocal && !s.remoteAvailable
  | none => false

/-- The re-raise test of the per-server `except RuntimeError` handler:
a RuntimeError whose text contains "MCP SDK not available" propagates. -/
def fatalExn (e : PyExn) : Bool :=
  e.isRuntimeError && pyIn "MCP SDK not available" e.msg

/-- The combined outcome of `client.initialize()` followed by
`client.list_tools()`. -/
def clientOutcome (cs : ClientState) : Except PyExn (List ToolDict) :=
  match cs.spec.initResult with
  | some e => .error e
  | none => cs.spec.toolsResult

/-- The inner `for tool in tools` loop of `initialize_all`: a tool with a
nonempty name that is not yet registered is added to `tools` and
`_tool_to_server`. -/
def addServerTools (serverName : String) (ts : List ToolDict) (st : RegistryState) :
    RegistryState :=
  ts.foldl
    (fun acc t =>
      if !t.name.isEmpty && (pyGet acc.tools t.name).isNone then
        { acc with
            tools := acc.tools ++ [(t.name, t)]
            toolToServer := acc.toolToServer ++ [(t.name, serverName)] }
      else acc)
    st

/-- The `for server_name, client in self._mcp_clients.items()` loop of
`initialize_all`: each backend is connected and its tools aggregated; a
non-fatal exception is logged and the loop goes on; a RuntimeError containing
"MCP SDK not available" is re-raised.  After the loop `_fully_initialized`
is set. -/
def initLoop (env : RegEnv) : List (String × ClientState) → RegistryState →
    Except PyExn RegistryState
  | [], st => .ok { st with fullyInit := true }
  | (serverName, cs) :: rest, st =>
      if skipServer env serverName then initLoop env rest st
      else if (pyGet st.clientInit serverName).getD false then initLoop env rest st
      else
        match cs.spec.initResult with
        | some e => if fatalExn e then .error e else initLoop env rest st
        | none =>
            let st1 := { st with clientInit := pySet st.clientInit serverName true }
            match cs.spec.toolsResult with
            | .error e => if fatalExn e then .error e else initLoop env rest st1
            | .ok ts => initLoop env rest (addServerTools serverName ts st1)

/-- Embedding of `MCPToolRegistry.initialize_all`: the SDK check followed by
the per-server aggregation loop.  (`server_manager.initialize_servers()` is an
external effect with no bearing on the registry state.) -/
def initAll (env : RegEnv) (st : RegistryState) : Except PyExn RegistryState :=
  if !env.sdkAvailable then
    .error ⟨true, "MCP SDK not available. Please install mcp package (requires Python >= 3.10) to use MCP servers."⟩
  else initLoop env st.mcpClients st

/-- The not-found message of `call_tool`. -/
def toolNotFoundMsg (toolName : String) (available : List String) : String :=
  "Tool '" ++ toolName ++ "' not found. Available tools: " ++ pyListReprStr available

/-- Embedding of `MCPToolRegistry.call_tool` (mcp_tools/registry.py): resolve
the owning server, then the client, then execute; every exception from the
client call is caught and converted into a failed ToolResult.  The function
performs no connection setup and is total: it always returns a ToolResult. -/
def callTool (st : RegistryState) (tc : ToolCall) : ToolResult :=
  let serverName := (pyGet st.toolToServer tc.name).getD ""
  if serverName.isEmpty then
    { tool_name := tc.name, success := false, result := none
      error := some (toolNotFoundMsg tc.name (st.tools.map Prod.fst)) }
  else
    match pyGet st.mcpClients serverName with
    | none =>
        { tool_name := tc.name, success := false, result := none
          error := some ("MCP client for server '" ++ serverName ++ "' not found") }
    | some cs =>
        let outcome : Except PyExn PyVal :=
          if cs.closed then .error ⟨false, "Connection closed"⟩
          else cs.spec.callResult tc.name tc.arguments
        match outcome with
        | .ok r => { tool_name := tc.name, success := true, result := some r }
        | .error e =>
            { tool_name := tc.name, success := false, result := none, error := some e.msg }

/-- Embedding of `MCPToolRegistry.get_tool_function_definitions` (the shape of
one OpenAI-style function definition). -/
structure FuncDef where
  name : String
  description : String
  parameters : PyVal

/-- The function definitions derived from the registered tools. -/
def getToolFunctionDefinitions (st : RegistryState) : List FuncDef :=
  st.tools.map fun p => ⟨p.2.name, p.2.description, p.2.inputSchema⟩

/-- Embedding of `MCPToolRegistry.reload_config`: close every existing client
(close errors are logged and swallowed), clear `tools`, `_tool_to_server`,
`_mcp_clients`, `_client_initialized` and `_fully_initialized`, re-create the
clients from the new configuration, and re-run `initialize_all`. -/
def reloadConfig (st : RegistryState) (newEnv : RegEnv) : Except PyExn RegistryState :=
  let cleared : RegistryState :=
    { st with tools := [], toolToServer := [], mcpClients := [], clientInit := [],
              fullyInit := false }
  let recreated : RegistryState :=
    { cleared with
        mcpClients := (createClients newEnv.cfg).mcpClients
        clientInit := (createClients newEnv.cfg).clientInit }
  initAll newEnv recreated

/-- Embedding of `MCPToolRegistry.close_all`: close every client (close
errors are logged and swallowed), reset `_fully_initialized` and clear
`_client_initialized`; `tools`, `_tool_to_server` and `_mcp_clients` are left
in place. -/
def closeAll (st : RegistryState) : RegistryState :=
  { st with
      mcpClients := st.mcpClients.map fun p => (p.1, ClientState.mk p.2.spec true)
      fullyInit := false
      clientInit := [] }

/-- Modelled from the spec: a legacy tool implementation (`FAQTool` /
`RetrieverTool` under backend/app/mcp/tools/ are not under src/).  Per spec
section 4.1 a local backend invokes a registered function that either returns
a value or raises; the registry only probes for an `execute` attribute before
calling it. -/
structure LegacyToolImpl where
  hasExecute : Bool
  hasCallAttr : Bool
  run : PyVal → Except PyExn PyVal

/-- Embedding of the legacy `MCPToolRegistry.call_tool`
(backend/app/mcp/registry.py): resolve the implementation, execute it, and
convert any raised exception into a failed ToolResult. -/
def legacyCallTool (impls : List (String × LegacyToolImpl)) (tc : ToolCall) : ToolResult :=
  match pyGet impls tc.name with
  | none =>
      { tool_name := tc.name, success := false, result := none
        error := some ("Tool '" ++ tc.name ++ "' not found") }
  | some impl =>
      if impl.hasExecute || impl.hasCallAttr then
        match impl.run tc.arguments with
        | .ok r => { tool_name := tc.name, success := true, result := some r }
        | .error e =>
            { tool_name := tc.name, success := false, result := none, error := some e.msg }
      else
        { tool_name := tc.name, success := false, result := none
          error := some ("Tool '" ++ tc.name ++ "' does not have execute method") }

end TravelAgent

namespace TravelAgent

/-- An uploaded file entry of a ChatRequest (name and content). -/
structure FileDict where
  fname : String
  fcontent : String

/-- Embedding of the `ChatRequest` fields consumed by `prepare_messages`. -/
structure ChatRequest where
  message : Option String := none
  messages : Option (List PyMsg) := none
  files : Option (List FileDict) := none

/-- Modelled from the spec: `MAX_CONVERSATION_TURNS`
(backend/app/utils/constants.py is not under src/).  The spec only says the
history is trimmed to recent messages; the value is a positive constant. -/
def MAX_CONVERSATION_TURNS : Nat := 10

/-- Python slice `xs[i:]` for a possibly negative index. -/
def pySliceFrom (i : Int) {α : Type} (xs : List α) : List α :=
  if 0 ≤ i then xs.drop i.toNat
  else xs.drop (xs.length - (-i).toNat)

/-- Embedding of `MessageProcessingService.trim_history`: keep the whole
history when short enough, else the last `max_turns` messages, preserving a
leading system message. -/
def trim_history (messages : List PyMsg) (maxTurns : Nat) : List PyMsg :=
  if messages.length ≤ maxTurns then messages
  else
    match messages with
    | [] => pySliceFrom (-(maxTurns : Int)) messages
    | m0 :: _ =>
        if m0.role == some "system" then
          [m0] ++ pySliceFrom (-((maxTurns : Int) - 1)) messages
        else pySliceFrom (-(maxTurns : Int)) messages

/-- The filtering step of `prepare_messages`: keep only user/assistant
messages and rebuild each as a clean dict of exactly `role` and `content`
(`tool_calls`, `tool_call_id`, `name` are explicitly excluded). -/
def filterHistory (messages : List PyMsg) : List PyMsg :=
  messages.filterMap fun m =>
    let role := m.role.getD ""
    if role = "user" || role = "assistant" then
      some { role := some role, content := some (m.content.getD "") }
    else none

/-- Embedding of `MessageProcessingService.prepare_messages`; `fmtFiles`
stands for `format_files_for_message` (backend/app/service/chat_file_handler.py
is not under src/), an arbitrary files-to-text rendering. -/
def prepare_messages (fmtFiles : Option (List FileDict) → String)
    (req : ChatRequest) : List PyMsg :=
  let fileContent := fmtFiles req.files
  let userMessage := req.message.getD ""
  let userMessage :=
    if !fileContent.isEmpty then
      if !userMessage.isEmpty then userMessage ++ "\n\n" ++ fileContent else fileContent
    else userMessage
  let filtered := filterHistory (req.messages.getD [])
  let filtered :=
    if !userMessage.isEmpty then
      filtered ++ [{ role := some "user", content := some userMessage }]
    else filtered
  trim_history filtered MAX_CONVERSATION_TURNS

/-- Embedding of `StreamingService.should_stream_response`. -/
def should_stream_response (iteration : Nat) (functions : List FuncDef)
    (has_tool_calls : Bool) : Bool :=
  if iteration > 1 then true
  else if iteration = 1 && functions.isEmpty then true
  else if iteration = 1 && !functions.isEmpty && !has_tool_calls then true
  else false

/-- An event yielded by `ChatService.chat_stream`. -/
inductive ChatEvent where
  | chunk (content : String) : ChatEvent
  | toolCallStart (tool input : String) : ChatEvent
  | toolCallEnd (tool result : String) : ChatEvent
  | toolCallError (tool error : String) : ChatEvent
deriving DecidableEq

/-- An exception surfacing from a collaborator call inside the loop body:
either an `LLMError` or a generic exception, with its text. -/
structure PyErrInfo where
  isLLMError : Bool
  msg : String

/-- Modelled from the spec: `format_error_message`
(backend/app/utils/exceptions.py is not under src/).  Per spec section 4.4,
completion-service errors surface as a single user-facing error string built
from a context and the exception text. -/
def format_error_msg (context msg : String) : String := context ++ ": " ++ msg

/-- The chunk content produced by the two `except` handlers of the loop
body. -/
def errChunkContent (e : PyErrInfo) : String :=
  if e.isLLMError then format_error_msg "Error processing request" e.msg
  else "An unexpected error occurred: " ++ e.msg

/-- The detection result `{content, tool_calls}` returned by
`ToolDetectionService.detect_tool_calls`. -/
structure QuickDetection where
  content : String
  tool_calls : List ToolCall

/-- One detection call either returns a value (possibly `None`) or raises. -/
inductive DetectOutcome where
  | ok (qd : Option QuickDetection) : DetectOutcome
  | raise (e : PyErrInfo) : DetectOutcome

/-- The collaborator environment of one `chat_stream` call, indexed by how
many calls of each kind were made so far: the detection service, the tool
executor (`ToolExecutionService.execute_tool_calls` is not under src/: per
spec section 4.4 it yields tool events and appends the tool-request and
tool-result messages, or raises), and the streaming service. -/
structure ChatEnv where
  detect : Nat → DetectOutcome
  execEvents : Nat → List ChatEvent
  execAppend : Nat → List PyMsg
  execErr : Nat → Option PyErrInfo
  streamChunks : Nat → List String
  streamErr : Nat → Option PyErrInfo

/-- The `max_tool_iterations` constant of `ChatService`. -/
def maxToolIterations : Nat := 4

/-- The greeting chunk for an empty conversation. -/
def emptyGreeting : String :=
  "你好！我是您的旅行助手。我可以帮助您规划旅行、回答旅行相关问题、查找目的地信息等。请告诉我您需要什么帮助？"

/-- Fallback chunk when tools were used but found nothing. -/
def fallbackNoInfo : String :=
  "很抱歉，我尝试了多种方法查找相关信息，但未能找到您问题的答案。建议您联系Harry获取更具体的帮助。"

/-- Fallback chunk for a generic processing problem. -/
def fallbackGeneric : String :=
  "抱歉，处理请求时遇到问题，请重试。"

/-- The appended "contact Harry" suffix chunk. -/
def harrySuffix : String :=
  "\n\n如果您需要更具体的帮助，建议您联系Harry。"

/-- The loop state of `chat_stream`: the iteration counter, the collaborator
call counters, `accumulated_content`, the message history and the events
yielded so far. -/
structure LoopSt where
  iteration : Nat
  detectCalls : Nat
  streamCalls : Nat
  execCalls : Nat
  accumulated : String
  messages : List PyMsg
  events : List ChatEvent

/-- The outcome of one `chat_stream` call: the yielded events, how many
detection calls were made, and the final iteration count. -/
structure ChatResult where
  events : List ChatEvent
  detectCalls : Nat
  iterations : Nat

/-- The result of one pass of the loop body: `break`/`return` out of the loop,
or `continue`/fall-through to the next iteration. -/
inductive StepRes where
  | halt (r : ChatResult) : StepRes
  | next (st : LoopSt) : StepRes

/-- The trailing checks of the loop body (`if accumulated_content: ...
elif iteration >= self.max_tool_iterations: ...`): break with an optional
"contact Harry" suffix, break with a fallback chunk, or go to the next
iteration. -/
def doneChecksStep (st : LoopSt) (i : Nat) : StepRes :=
  if !st.accumulated.isEmpty then
    let extra :=
      if decide (i > 1) && check_tools_used_but_no_info st.messages &&
          !response_suggests_contact_harry st.accumulated then
        [ChatEvent.chunk harrySuffix]
      else []
    .halt ⟨st.events ++ extra, st.detectCalls, i⟩
  else if i ≥ maxToolIterations then
    let fb := if check_tools_used_but_no_info st.messages then fallbackNoInfo
              else fallbackGeneric
    .halt ⟨st.events ++ [ChatEvent.chunk fb], st.detectCalls, i⟩
  else .next { st with iteration := i }

/-- The "normal streaming" block of the loop body (taken when no functions
are available): stream the final response, handle the zero-chunk case, and
fall through to the trailing checks when nothing decided. -/
def normalStreamingStep (env : ChatEnv) (functions : List FuncDef) (st : LoopSt)
    (i : Nat) : StepRes :=
  if functions.isEmpty || i > maxToolIterations then
    if should_stream_response i functions false then
      let chunks := env.streamChunks st.streamCalls
      let st1 : LoopSt :=
        { st with
            streamCalls := st.streamCalls + 1
            accumulated := st.accumulated ++ String.join chunks
            events := st.events ++ chunks.map ChatEvent.chunk }
      match env.streamErr st.streamCalls with
      | some e => .halt ⟨st1.events ++ [ChatEvent.chunk (errChunkContent e)], st1.detectCalls, i⟩
      | none =>
        if decide (i > 1) && chunks.isEmpty then
          let extra :=
            if st1.accumulated.isEmpty then
              [ChatEvent.chunk (if check_tools_used_but_no_info st1.messages then
                  fallbackNoInfo else fallbackGeneric)]
            else []
          .halt ⟨st1.events ++ extra, st1.detectCalls, i⟩
        else if !chunks.isEmpty then
          let extra :=
            if decide (i > 1) && check_tools_used_but_no_info st1.messages &&
                !response_suggests_contact_harry st1.accumulated then
              [ChatEvent.chunk harrySuffix]
            else []
          .halt ⟨st1.events ++ extra, st1.detectCalls, i⟩
        else doneChecksStep st1 i
    else doneChecksStep st i
  else doneChecksStep st i

/-- One pass of the `while iteration < self.max_tool_iterations` body of
`ChatService.chat_stream`. -/
def chatStep (env : ChatEnv) (functions : List FuncDef) (st : LoopSt) : StepRes :=
  let i := st.iteration + 1
  if !functions.isEmpty && i ≤ maxToolIterations then
    match env.detect st.detectCalls with
    | .raise e =>
        .halt ⟨st.events ++ [ChatEvent.chunk (errChunkContent e)], st.detectCalls + 1, i⟩
    | .ok none => normalStreamingStep env functions { st with detectCalls := st.detectCalls + 1 } i
    | .ok (some qd) =>
        let st1 := { st with detectCalls := st.detectCalls + 1 }
        if !qd.tool_calls.isEmpty then
          match env.execErr st1.execCalls with
          | some e =>
              .halt ⟨st1.events ++ env.execEvents st1.execCalls ++
                       [ChatEvent.chunk (errChunkContent e)],
                     st1.detectCalls, i⟩
          | none =>
              .next { st1 with
                        events := st1.events ++ env.execEvents st1.execCalls
                        messages := st1.messages ++ env.execAppend st1.execCalls
                        execCalls := st1.execCalls + 1
                        iteration := i }
        else if !qd.content.isEmpty then
          let chunks := env.streamChunks st1.streamCalls
          match env.streamErr st1.streamCalls with
          | some e =>
              .halt ⟨st1.events ++ chunks.map ChatEvent.chunk ++
                       [ChatEvent.chunk (errChunkContent e)],
                     st1.detectCalls, i⟩
          | none => .halt ⟨st1.events ++ chunks.map ChatEvent.chunk, st1.detectCalls, i⟩
        else normalStreamingStep env functions st1 i
  else normalStreamingStep env functions st i

/-- The tool-calling loop of `chat_stream`.  The fuel argument equals
`max_tool_iterations - iteration` at entry, so the guard `iteration <
max_tool_iterations` and the fuel run out together. -/
def chatLoop (env : ChatEnv) (functions : List FuncDef) : Nat → LoopSt → ChatResult
  | 0, st => ⟨st.events, st.detectCalls, st.iteration⟩
  | fuel + 1, st =>
      if st.iteration < maxToolIterations then
        match chatStep env functions st with
        | .halt r => r
        | .next st2 => chatLoop env functions fuel st2
      else ⟨st.events, st.detectCalls, st.iteration⟩

/-- Embedding of `ChatService.chat_stream`: prepare the messages, emit the
greeting for an empty conversation, otherwise run the bounded tool-calling
loop.  `functions` is the list obtained from the registry's
`get_tool_function_definitions`. -/
def chat_stream (fmtFiles : Option (List FileDict) → String) (env : ChatEnv)
    (functions : List FuncDef) (req : ChatRequest) : ChatResult :=
  let messages := prepare_messages fmtFiles req
  if messages.isEmpty then ⟨[ChatEvent.chunk emptyGreeting], 0, 0⟩
  else chatLoop env functions maxToolIterations ⟨0, 0, 0, 0, "", messages, []⟩

end TravelAgent

namespace TravelAgent

/-- First-defined alternative on options (Python dict precedence). -/
def orO {α : Type} (a b : Option α) : Option α :=
  match a with
  | some x => some x
  | none => b

theorem orO_none_left {α : Type} (b : Option α) : orO none b = b := rfl

theorem orO_some_left {α : Type} (x : α) (b : Option α) : orO (some x) b = some x := rfl

theorem pyGet_append {α : Type} (l1 l2 : List (String × α)) (key : String) :
    pyGet (l1 ++ l2) key = orO (pyGet l1 key) (pyGet l2 key) := by
  induction l1 with
  | nil => simp [pyGet, orO]
  | cons p rest ih =>
      obtain ⟨k, v⟩ := p
      by_cases h : k = key
      · simp [pyGet, h, orO]
      · simp [pyGet, h, ih]

theorem pyGet_eq_none_iff {α : Type} (l : List (String × α)) (key : String) :
    pyGet l key = none ↔ key ∉ l.map Prod.fst := by
  induction l with
  | nil => simp [pyGet]
  | cons p rest ih =>
      obtain ⟨k, v⟩ := p
      by_cases h : k = key
      · simp [pyGet, h]
      · rw [pyGet, if_neg h, ih, List.map_cons]
        simp only [List.mem_cons, not_or]
        constructor
        · intro hn
          exact ⟨fun he => h he.symm, hn⟩
        · intro hn
          exact hn.2

theorem pySet_get_other {α : Type} (l : List (String × α)) (k key : String) (v : α)
    (h : k ≠ key) : pyGet (pySet l k v) key = pyGet l key := by
  induction l with
  | nil => simp [pySet, pyGet, h]
  | cons p rest ih =>
      obtain ⟨k1, v1⟩ := p
      by_cases h1 : k1 = k
      · subst h1
        simp [pySet, pyGet, h]
      · by_cases h2 : k1 = key
        · subst h2
          simp [pySet, h1, pyGet, Ne.symm h]
        · simp [pySet, h1, pyGet, h2, ih]

theorem pyGet_map_false (key : String) (l : List ServerSpec) :
    (pyGet (l.map fun s => (s.name, false)) key).getD false = false := by
  induction l with
  | nil => simp [pyGet]
  | cons s rest ih =>
      by_cases h : s.name = key
      · simp [pyGet, h]
      · simp [pyGet, h, ih]

theorem pyGet_map_snd {α β : Type} (g : α → β) (l : List (String × α)) (key : String) :
    pyGet (l.map fun p => (p.1, g p.2)) key = (pyGet l key).map g := by
  induction l with
  | nil => simp [pyGet]
  | cons p rest ih =>
      obtain ⟨k, v⟩ := p
      by_cases h : k = key
      · simp [pyGet, h]
      · simp [pyGet, h, ih]

end TravelAgent

namespace TravelAgent

/-- The (tool name, descriptor, owning server) triples one server contributes
when its tools load successfully (empty names are ignored). -/
def toolTriples (serverName : String) (ts : List ToolDict) :
    List (String × ToolDict × String) :=
  (ts.filter fun t => !t.name.isEmpty).map fun t => (t.name, t, serverName)

/-- The triples contributed by a list of clients in processing order: a
skipped server, or one whose connection or listing raises, contributes
nothing. -/
def aggTriples (env : RegEnv) (clients : List (String × ClientState)) :
    List (String × ToolDict × String) :=
  clients.flatMap fun p =>
    if skipServer env p.1 then []
    else
      match clientOutcome p.2 with
      | .error _ => []
      | .ok ts => toolTriples p.1 ts

/-- First-wins registration of triples into the registry maps. -/
def addTriples (st : RegistryState) (l : List (String × ToolDict × String)) :
    RegistryState :=
  l.foldl
    (fun acc x =>
      if (pyGet acc.tools x.1).isNone then
        { acc with
            tools := acc.tools ++ [(x.1, x.2.1)]
            toolToServer := acc.toolToServer ++ [(x.1, x.2.2)] }
      else acc)
    st

theorem addTriples_nil (st : RegistryState) : addTriples st [] = st := rfl

theorem addTriples_append (st : RegistryState) (l1 l2 : List (String × ToolDict × String)) :
    addTriples st (l1 ++ l2) = addTriples (addTriples st l1) l2 := by
  simp [addTriples, List.foldl_append]

theorem addServerTools_eq_addTriples (serverName : String) (ts : List ToolDict)
    (st : RegistryState) :
    addServerTools serverName ts st = addTriples st (toolTriples serverName ts) := by
  induction ts generalizing st with
  | nil => rfl
  | cons t rest ih =>
      by_cases hn : t.name.isEmpty
      · have h1 : (!t.name.isEmpty && (pyGet st.tools t.name).isNone) = false := by
          simp [hn]
        simp [addServerTools, toolTriples, hn, h1] at ih ⊢
        exact ih st
      · by_cases hl : (pyGet st.tools t.name).isNone
        · simp [addServerTools, toolTriples, hn, hl, addTriples] at ih ⊢
          exact ih _
        · simp [addServerTools, toolTriples, hn, hl, addTriples] at ih ⊢
          exact ih st

theorem addTriples_mcpClients (st : RegistryState) (l : List (String × ToolDict × String)) :
    (addTriples st l).mcpClients = st.mcpClients := by
  induction l generalizing st with
  | nil => rfl
  | cons x rest ih =>
      by_cases h : (pyGet st.tools x.1).isNone
      · simp [addTriples, h] at ih ⊢
        exact ih _
      · simp [addTriples, h] at ih ⊢
        exact ih st

theorem addTriples_clientInit (st : RegistryState) (l : List (String × ToolDict × String)) :
    (addTriples st l).clientInit = st.clientInit := by
  induction l generalizing st with
  | nil => rfl
  | cons x rest ih =>
      by_cases h : (pyGet st.tools x.1).isNone
      · simp [addTriples, h] at ih ⊢
        exact ih _
      · simp [addTriples, h] at ih ⊢
        exact ih st

theorem addTriples_fullyInit (st : RegistryState) (l : List (String × ToolDict × String)) :
    (addTriples st l).fullyInit = st.fullyInit := by
  induction l generalizing st with
  | nil => rfl
  | cons x rest ih =>
      by_cases h : (pyGet st.tools x.1).isNone
      · simp [addTriples, h] at ih ⊢
        exact ih _
      · simp [addTriples, h] at ih ⊢
        exact ih st

theorem addTriples_set_clientInit (st : RegistryState) (c : List (String × Bool))
    (l : List (String × ToolDict × String)) :
    addTriples { st with clientInit := c } l = { addTriples st l with clientInit := c } := by
  induction l generalizing st with
  | nil => rfl
  | cons x rest ih =>
      by_cases h : (pyGet st.tools x.1).isNone
      · simp [addTriples, h] at ih ⊢
        exact ih { st with
          tools := st.tools ++ [(x.1, x.2.1)]
          toolToServer := st.toolToServer ++ [(x.1, x.2.2)] }
      · simp [addTriples, h] at ih ⊢
        exact ih st

end TravelAgent

namespace TravelAgent

theorem addTriples_tools_get (l : List (String × ToolDict × String)) (st : RegistryState)
    (key : String) :
    pyGet (addTriples st l).tools key =
      orO (pyGet st.tools key) ((l.find? fun x => x.1 = key).map fun x => x.2.1) := by
  induction l generalizing st with
  | nil => cases h : pyGet st.tools key <;> simp [addTriples, orO, h]
  | cons x rest ih =>
      by_cases h : (pyGet st.tools x.1).isNone
      · rw [show addTriples st (x :: rest) =
              addTriples { st with
                tools := st.tools ++ [(x.1, x.2.1)]
                toolToServer := st.toolToServer ++ [(x.1, x.2.2)] } rest by
            simp [addTriples, h]]
        rw [ih]
        by_cases hk : x.1 = key
        · subst hk
          have hnone : pyGet st.tools x.1 = none := by
            cases hg : pyGet st.tools x.1 <;> simp [hg] at h ⊢
          simp [pyGet_append, hnone, orO, pyGet, List.find?]
        · have : pyGet (st.tools ++ [(x.1, x.2.1)]) key = pyGet st.tools key := by
            rw [pyGet_append]
            cases hg : pyGet st.tools key <;> simp [orO, hg, pyGet, hk]
          rw [this]
          simp [List.find?, hk]
      · rw [show addTriples st (x :: rest) = addTriples st rest by simp [addTriples, h]]
        rw [ih]
        by_cases hk : x.1 = key
        · subst hk
          have hsome : ∃ v, pyGet st.tools x.1 = some v := by
            cases hg : pyGet st.tools x.1 <;> simp [hg] at h ⊢
          obtain ⟨v, hv⟩ := hsome
          simp [hv, orO]
        · simp [List.find?, hk]

theorem addTriples_srv_get (l : List (String × ToolDict × String)) (st : RegistryState)
    (key : String) :
    pyGet (addTriples st l).toolToServer key =
      orO (pyGet st.toolToServer key)
        (match pyGet st.tools key with
         | some _ => none
         | none => (l.find? fun x => x.1 = key).map fun x => x.2.2) := by
  induction l generalizing st with
  | nil =>
      cases h : pyGet st.tools key <;> cases h2 : pyGet st.toolToServer key <;>
        simp [addTriples, orO, h, h2]
  | cons x rest ih =>
      by_cases h : (pyGet st.tools x.1).isNone
      · rw [show addTriples st (x :: rest) =
              addTriples { st with
                tools := st.tools ++ [(x.1, x.2.1)]
                toolToServer := st.toolToServer ++ [(x.1, x.2.2)] } rest by
            simp [addTriples, h]]
        rw [ih]
        by_cases hk : x.1 = key
        · subst hk
          have hnone : pyGet st.tools x.1 = none := by
            cases hg : pyGet st.tools x.1 <;> simp [hg] at h ⊢
          have h2 : pyGet st.toolToServer x.1 = none ∨
              ∃ v, pyGet st.toolToServer x.1 = some v := by
            cases hg : pyGet st.toolToServer x.1
            · exact Or.inl rfl
            · exact Or.inr ⟨_, rfl⟩
          rcases h2 with h2 | ⟨v, h2⟩ <;>
            simp [pyGet_append, hnone, h2, orO, pyGet, List.find?]
        · have ht : pyGet (st.tools ++ [(x.1, x.2.1)]) key = pyGet st.tools key := by
            rw [pyGet_append]
            cases hg : pyGet st.tools key <;> simp [orO, hg, pyGet, hk]
          have hs : pyGet (st.toolToServer ++ [(x.1, x.2.2)]) key =
              pyGet st.toolToServer key := by
            rw [pyGet_append]
            cases hg : pyGet st.toolToServer key <;> simp [orO, hg, pyGet, hk]
          rw [ht, hs]
          simp [List.find?, hk]
      · rw [show addTriples st (x :: rest) = addTriples st rest by simp [addTriples, h]]
        rw [ih]
        by_cases hk : x.1 = key
        · subst hk
          have hsome : ∃ v, pyGet st.tools x.1 = some v := by
            cases hg : pyGet st.tools x.1 <;> simp [hg] at h ⊢
          obtain ⟨v, hv⟩ := hsome
          simp [hv, orO]
        · simp [List.find?, hk]

theorem addTriples_tools_nodup (l : List (String × ToolDict × String)) (st : RegistryState)
    (hnd : (st.tools.map Prod.fst).Nodup) :
    ((addTriples st l).tools.map Prod.fst).Nodup := by
  induction l generalizing st with
  | nil => exact hnd
  | cons x rest ih =>
      by_cases h : (pyGet st.tools x.1).isNone
      · rw [show addTriples st (x :: rest) =
              addTriples { st with
                tools := st.tools ++ [(x.1, x.2.1)]
                toolToServer := st.toolToServer ++ [(x.1, x.2.2)] } rest by
            simp [addTriples, h]]
        apply ih
        have hnone : pyGet st.tools x.1 = none := by
          cases hg : pyGet st.tools x.1 <;> simp [hg] at h ⊢
        have hmem : x.1 ∉ st.tools.map Prod.fst := (pyGet_eq_none_iff _ _).mp hnone
        simp only [List.map_append, List.map_cons, List.map_nil]
        exact List.Nodup.append hnd (List.nodup_singleton x.1)
          (by
            intro a ha hb
            simp at hb
            subst hb
            exact hmem ha)
      · rw [show addTriples st (x :: rest) = addTriples st rest by simp [addTriples, h]]
        exact ih st hnd

theorem addTriples_srv_mem (l : List (String × ToolDict × String)) (st : RegistryState)
    (q : String × String) (hq : q ∈ (addTriples st l).toolToServer) :
    q ∈ st.toolToServer ∨ ∃ x ∈ l, q = (x.1, x.2.2) := by
  induction l generalizing st with
  | nil => exact Or.inl hq
  | cons x rest ih =>
      by_cases h : (pyGet st.tools x.1).isNone
      · rw [show addTriples st (x :: rest) =
              addTriples { st with
                tools := st.tools ++ [(x.1, x.2.1)]
                toolToServer := st.toolToServer ++ [(x.1, x.2.2)] } rest by
            simp [addTriples, h]] at hq
        rcases ih _ hq with hin | ⟨y, hy, he⟩
        · simp only [List.mem_append, List.mem_singleton] at hin
          rcases hin with hin | hin
          · exact Or.inl hin
          · exact Or.inr ⟨x, List.mem_cons_self x rest, hin⟩
        · exact Or.inr ⟨y, List.mem_cons_of_mem x hy, he⟩
      · rw [show addTriples st (x :: rest) = addTriples st rest by simp [addTriples, h]] at hq
        rcases ih st hq with hin | ⟨y, hy, he⟩
        · exact Or.inl hin
        · exact Or.inr ⟨y, List.mem_cons_of_mem x hy, he⟩

end TravelAgent

namespace TravelAgent

theorem initLoop_char (env : RegEnv) (clients : List (String × ClientState))
    (st : RegistryState)
    (hnd : (clients.map Prod.fst).Nodup)
    (hini : ∀ p ∈ clients, (pyGet st.clientInit p.1).getD false = false)
    (hnf : ∀ p ∈ clients, skipServer env p.1 = false →
        ∀ e, clientOutcome p.2 = .error e → fatalExn e = false) :
    ∃ ci, initLoop env clients st =
      .ok { addTriples st (aggTriples env clients) with
              clientInit := ci, fullyInit := true } := by
  induction clients generalizing st with
  | nil => exact ⟨st.clientInit, rfl⟩
  | cons p rest ih =>
      obtain ⟨serverName, cs⟩ := p
      have hndr : (rest.map Prod.fst).Nodup := (List.nodup_cons.mp hnd).2
      have hsn : serverName ∉ rest.map Prod.fst := (List.nodup_cons.mp hnd).1
      have hinir : ∀ q ∈ rest, q.1 ≠ serverName := by
        intro q hq he
        exact hsn (he ▸ List.mem_map_of_mem Prod.fst hq)
      have hil : (pyGet st.clientInit serverName).getD false = false :=
        hini _ (List.mem_cons_self _ _)
      by_cases hskip : skipServer env serverName = true
      · have hstep : initLoop env ((serverName, cs) :: rest) st = initLoop env rest st := by
          simp [initLoop, hskip]
        have hagg : aggTriples env ((serverName, cs) :: rest) = aggTriples env rest := by
          simp [aggTriples, hskip]
        rw [hstep, hagg]
        exact ih st hndr (fun q hq => hini q (List.mem_cons_of_mem _ hq))
          (fun q hq => hnf q (List.mem_cons_of_mem _ hq))
      · rw [Bool.not_eq_true] at hskip
        cases hres : cs.spec.initResult with
        | some e =>
            have hout : clientOutcome (serverName, cs).2 = .error e := by
              simp [clientOutcome, hres]
            have hfat : fatalExn e = false :=
              hnf _ (List.mem_cons_self _ _) hskip e hout
            have hstep : initLoop env ((serverName, cs) :: rest) st = initLoop env rest st := by
              simp [initLoop, hskip, hil, hres, hfat]
            have hagg : aggTriples env ((serverName, cs) :: rest) = aggTriples env rest := by
              simp [aggTriples, hskip, hout]
            rw [hstep, hagg]
            exact ih st hndr (fun q hq => hini q (List.mem_cons_of_mem _ hq))
              (fun q hq => hnf q (List.mem_cons_of_mem _ hq))
        | none =>
            have hinir2 : ∀ q ∈ rest,
                (pyGet (pySet st.clientInit serverName true) q.1).getD false = false := by
              intro q hq
              rw [pySet_get_other st.clientInit serverName q.1 true
                    (fun he => hinir q hq he.symm)]
              exact hini q (List.mem_cons_of_mem _ hq)
            cases hts : cs.spec.toolsResult with
            | error e =>
                have hout : clientOutcome (serverName, cs).2 = .error e := by
                  simp [clientOutcome, hres, hts]
                have hfat : fatalExn e = false :=
                  hnf _ (List.mem_cons_self _ _) hskip e hout
                have hstep : initLoop env ((serverName, cs) :: rest) st =
                    initLoop env rest
                      { st with clientInit := pySet st.clientInit serverName true } := by
                  simp [initLoop, hskip, hil, hres, hts, hfat]
                have hagg : aggTriples env ((serverName, cs) :: rest) = aggTriples env rest := by
                  simp [aggTriples, hskip, hout]
                rw [hstep, hagg]
                obtain ⟨ci, hci⟩ := ih
                  { st with clientInit := pySet st.clientInit serverName true }
                  hndr hinir2 (fun q hq => hnf q (List.mem_cons_of_mem _ hq))
                refine ⟨ci, ?_⟩
                rw [hci, addTriples_set_clientInit]
            | ok ts =>
                have hout : clientOutcome (serverName, cs).2 = .ok ts := by
                  simp [clientOutcome, hres, hts]
                have hstep : initLoop env ((serverName, cs) :: rest) st =
                    initLoop env rest
                      (addServerTools serverName ts
                        { st with clientInit := pySet st.clientInit serverName true }) := by
                  simp [initLoop, hskip, hil, hres, hts]
                have hagg : aggTriples env ((serverName, cs) :: rest) =
                    toolTriples serverName ts ++ aggTriples env rest := by
                  simp [aggTriples, hskip, hout]
                rw [hstep, hagg, addTriples_append]
                set st1 : RegistryState :=
                  { st with clientInit := pySet st.clientInit serverName true } with hst1
                have hst2 : addServerTools serverName ts st1 =
                    { addTriples st (toolTriples serverName ts) with
                        clientInit := pySet st.clientInit serverName true } := by
                  rw [addServerTools_eq_addTriples, hst1, addTriples_set_clientInit]
                have hinir3 : ∀ q ∈ rest,
                    (pyGet (addServerTools serverName ts st1).clientInit q.1).getD false =
                      false := by
                  intro q hq
                  rw [hst2]
                  exact hinir2 q hq
                obtain ⟨ci, hci⟩ := ih (addServerTools serverName ts st1)
                  hndr hinir3 (fun q hq => hnf q (List.mem_cons_of_mem _ hq))
                refine ⟨ci, ?_⟩
                rw [hci, hst2, addTriples_set_clientInit]

end TravelAgent

namespace TravelAgent

theorem assoc_mem_unique {α : Type} (l : List (String × α))
    (hnd : (l.map Prod.fst).Nodup) (k : String) (v w : α)
    (hv : (k, v) ∈ l) (hw : (k, w) ∈ l) : v = w := by
  induction l with
  | nil => cases hv
  | cons p rest ih =>
      rw [List.map_cons] at hnd
      have hnd2 := List.nodup_cons.mp hnd
      rcases List.mem_cons.mp hv with hv1 | hv2
      · rcases List.mem_cons.mp hw with hw1 | hw2
        · rw [← hv1] at hw1
          injection hw1 with h1 h2
          exact h2.symm
        · exfalso
          apply hnd2.1
          have hk : p.1 = k := by rw [← hv1]
          rw [hk]
          exact List.mem_map_of_mem Prod.fst hw2
      · rcases List.mem_cons.mp hw with hw1 | hw2
        · exfalso
          apply hnd2.1
          have hk : p.1 = k := by rw [← hw1]
          rw [hk]
          exact List.mem_map_of_mem Prod.fst hv2
        · exact ih hnd2.2 hv2 hw2

theorem toolTriples_mem (serverName : String) (ts : List ToolDict)
    (x : String × ToolDict × String) (hx : x ∈ toolTriples serverName ts) :
    x.2.2 = serverName := by
  simp only [toolTriples, List.mem_map] at hx
  obtain ⟨t, ht, he⟩ := hx
  subst he
  rfl

theorem aggTriples_mem (env : RegEnv) (clients : List (String × ClientState))
    (x : String × ToolDict × String) (hx : x ∈ aggTriples env clients) :
    ∃ p ∈ clients, skipServer env p.1 = false ∧
      ∃ ts, clientOutcome p.2 = .ok ts ∧ x ∈ toolTriples p.1 ts := by
  simp only [aggTriples, List.mem_flatMap] at hx
  obtain ⟨p, hp, hxp⟩ := hx
  by_cases hskip : skipServer env p.1 = true
  · rw [if_pos hskip] at hxp
    cases hxp
  · rw [Bool.not_eq_true] at hskip
    rw [if_neg (by simp [hskip])] at hxp
    cases hout : clientOutcome p.2 with
    | error e =>
        rw [hout] at hxp
        cases hxp
    | ok ts =>
        rw [hout] at hxp
        exact ⟨p, hp, hskip, ts, hout, hxp⟩

theorem aggTriples_drop_empty (env : RegEnv) (clients : List (String × ClientState))
    (kname : String)
    (h : ∀ p ∈ clients, p.1 = kname →
        (if skipServer env p.1 then []
         else
           match clientOutcome p.2 with
           | .error _ => []
           | .ok ts => toolTriples p.1 ts) = ([] : List (String × ToolDict × String))) :
    aggTriples env clients = aggTriples env (clients.filter fun p => p.1 != kname) := by
  induction clients with
  | nil => rfl
  | cons p rest ih =>
      by_cases hp : p.1 = kname
      · have hc := h p (List.mem_cons_self _ _) hp
        have : aggTriples env (p :: rest) = aggTriples env rest := by
          simp only [aggTriples, List.flatMap_cons]
          rw [hc]
          simp
        rw [this]
        have hf : (p :: rest).filter (fun q => q.1 != kname) =
            rest.filter fun q => q.1 != kname := by
          simp [List.filter_cons, hp]
        rw [hf]
        exact ih fun q hq => h q (List.mem_cons_of_mem _ hq)
      · have hf : (p :: rest).filter (fun q => q.1 != kname) =
            p :: rest.filter fun q => q.1 != kname := by
          simp [List.filter_cons, hp]
        simp only [aggTriples, List.flatMap_cons, hf]
        have := ih fun q hq => h q (List.mem_cons_of_mem _ hq)
        simp only [aggTriples] at this
        rw [this]

theorem initLoop_mcpClients (env : RegEnv) (clients : List (String × ClientState))
    (st st' : RegistryState) (h : initLoop env clients st = .ok st') :
    st'.mcpClients = st.mcpClients := by
  induction clients generalizing st with
  | nil =>
      simp only [initLoop] at h
      cases h
      rfl
  | cons p rest ih =>
      obtain ⟨serverName, cs⟩ := p
      simp only [initLoop] at h
      by_cases hskip : skipServer env serverName = true
      · simp only [hskip, if_true] at h
        exact ih st h
      · simp only [hskip, if_false, Bool.false_eq_true] at h
        by_cases hil : (pyGet st.clientInit serverName).getD false = true
        · simp only [hil, if_true] at h
          exact ih st h
        · simp only [hil, if_false, Bool.false_eq_true] at h
          cases hres : cs.spec.initResult with
          | some e =>
              simp only [hres] at h
              by_cases hfat : fatalExn e = true
              · simp [hfat] at h
              · simp only [hfat, if_false, Bool.false_eq_true] at h
                exact ih st h
          | none =>
              simp only [hres] at h
              cases hts : cs.spec.toolsResult with
              | error e =>
                  simp only [hts] at h
                  by_cases hfat : fatalExn e = true
                  · simp [hfat] at h
                  · simp only [hfat, if_false, Bool.false_eq_true] at h
                    exact ih { st with clientInit := pySet st.clientInit serverName true } h
              | ok ts =>
                  simp only [hts] at h
                  have := ih _ h
                  rw [this, addServerTools_eq_addTriples, addTriples_mcpClients]

theorem initLoop_srv_from (env : RegEnv) (clients : List (String × ClientState))
    (st st' : RegistryState) (h : initLoop env clients st = .ok st')
    (q : String × String) (hq : q ∈ st'.toolToServer) :
    q ∈ st.toolToServer ∨ q.2 ∈ clients.map Prod.fst := by
  induction clients generalizing st with
  | nil =>
      simp only [initLoop] at h
      cases h
      exact Or.inl hq
  | cons p rest ih =>
      obtain ⟨serverName, cs⟩ := p
      simp only [initLoop] at h
      by_cases hskip : skipServer env serverName = true
      · simp only [hskip, if_true] at h
        rcases ih st h with h1 | h1
        · exact Or.inl h1
        · exact Or.inr (List.mem_cons_of_mem _ h1)
      · simp only [hskip, if_false, Bool.false_eq_true] at h
        by_cases hil : (pyGet st.clientInit serverName).getD false = true
        · simp only [hil, if_true] at h
          rcases ih st h with h1 | h1
          · exact Or.inl h1
          · exact Or.inr (List.mem_cons_of_mem _ h1)
        · simp only [hil, if_false, Bool.false_eq_true] at h
          cases hres : cs.spec.initResult with
          | some e =>
              simp only [hres] at h
              by_cases hfat : fatalExn e = true
              · simp [hfat] at h
              · simp only [hfat, if_false, Bool.false_eq_true] at h
                rcases ih st h with h1 | h1
                · exact Or.inl h1
                · exact Or.inr (List.mem_cons_of_mem _ h1)
          | none =>
              simp only [hres] at h
              cases hts : cs.spec.toolsResult with
              | error e =>
                  simp only [hts] at h
                  by_cases hfat : fatalExn e = true
                  · simp [hfat] at h
                  · simp only [hfat, if_false, Bool.false_eq_true] at h
                    rcases ih _ h with h1 | h1
                    · exact Or.inl h1
                    · exact Or.inr (List.mem_cons_of_mem _ h1)
              | ok ts =>
                  simp only [hts] at h
                  rcases ih _ h with h1 | h1
                  · rw [addServerTools_eq_addTriples] at h1
                    rcases addTriples_srv_mem _ _ _ h1 with h2 | ⟨x, hx, he⟩
                    · exact Or.inl h2
                    · have hsv := toolTriples_mem serverName ts x hx
                      rw [he]
                      exact Or.inr (by simp [hsv])
                  · exact Or.inr (List.mem_cons_of_mem _ h1)

theorem initAll_fresh_char (env : RegEnv) (hsdk : env.sdkAvailable = true)
    (hnd : ((createClients env.cfg).mcpClients.map Prod.fst).Nodup)
    (hnf : ∀ p ∈ (createClients env.cfg).mcpClients, skipServer env p.1 = false →
        ∀ e, clientOutcome p.2 = .error e → fatalExn e = false) :
    ∃ ci, initAll env (createClients env.cfg) =
      .ok { addTriples (createClients env.cfg)
              (aggTriples env (createClients env.cfg).mcpClients) with
              clientInit := ci, fullyInit := true } := by
  have hini : ∀ p ∈ (createClients env.cfg).mcpClients,
      (pyGet (createClients env.cfg).clientInit p.1).getD false = false := by
    intro p _
    exact pyGet_map_false p.1 (env.cfg.filter fun s => !s.createFails)
  have := initLoop_char env (createClients env.cfg).mcpClients (createClients env.cfg)
    hnd hini hnf
  simpa [initAll, hsdk] using this

end TravelAgent

namespace TravelAgent

/-- Claim C3: for every configuration in which two or more backends expose a
tool with the same name, after `initialize_all` the registry's tool map
contains exactly one descriptor per name (the keys are nodup), and that
descriptor — and its owning server — is the one of the FIRST backend
processed in configuration order that successfully contributes the name
(`find?` over the aggregated contributions in processing order); later
duplicates are dropped. -/
theorem claim_C3_first_backend_wins (env : RegEnv) (st : RegistryState)
    (hsdk : env.sdkAvailable = true)
    (hnd : ((createClients env.cfg).mcpClients.map Prod.fst).Nodup)
    (hnf : ∀ p ∈ (createClients env.cfg).mcpClients, skipServer env p.1 = false →
        ∀ e, clientOutcome p.2 = .error e → fatalExn e = false)
    (h : initAll env (createClients env.cfg) = .ok st) :
    (st.tools.map Prod.fst).Nodup ∧
    (∀ name, pyGet st.tools name =
      (((aggTriples env (createClients env.cfg).mcpClients).find? fun x => x.1 = name).map
        fun x => x.2.1)) ∧
    (∀ name, pyGet st.toolToServer name =
      (((aggTriples env (createClients env.cfg).mcpClients).find? fun x => x.1 = name).map
        fun x => x.2.2)) := by
  obtain ⟨ci, hci⟩ := initAll_fresh_char env hsdk hnd hnf
  rw [hci] at h
  injection h with h
  subst h
  refine ⟨?_, ?_, ?_⟩
  · show ((addTriples (createClients env.cfg)
      (aggTriples env (createClients env.cfg).mcpClients)).tools.map Prod.fst).Nodup
    exact addTriples_tools_nodup _ _ (by simp [createClients])
  · intro name
    show pyGet (addTriples (createClients env.cfg)
      (aggTriples env (createClients env.cfg).mcpClients)).tools name = _
    rw [addTriples_tools_get]
    rfl
  · intro name
    show pyGet (addTriples (createClients env.cfg)
      (aggTriples env (createClients env.cfg).mcpClients)).toolToServer name = _
    rw [addTriples_srv_get]
    rfl

/-- A client whose tool call always raises (used by concrete instances). -/
def noCall : String → PyVal → Except PyExn PyVal := fun _ _ => .error ⟨false, "no"⟩

/-- Concrete backend "alpha" exposing tool "dup" (first in order). -/
def clientAlpha : MCPClient :=
  ⟨none, .ok [⟨"dup", "from-alpha", .obj []⟩], noCall, false⟩

/-- Concrete backend "beta" also exposing tool "dup" (second in order). -/
def clientBeta : MCPClient :=
  ⟨none, .ok [⟨"dup", "from-beta", .obj []⟩, ⟨"extra", "more", .obj []⟩], noCall, false⟩

/-- A two-backend configuration with a duplicated tool name. -/
def envW3 : RegEnv :=
  ⟨[⟨"alpha", clientAlpha, false, true, true⟩, ⟨"beta", clientBeta, false, true, true⟩], true⟩

/-- The registry state produced by initializing `envW3`. -/
def stW3 : RegistryState :=
  match initAll envW3 (createClients envW3.cfg) with
  | .ok st => st
  | .error _ => ⟨[], [], [], [], false⟩

theorem claim_C3_first_backend_wins_witness :
    pyGet stW3.tools "dup" = some ⟨"dup", "from-alpha", .obj []⟩ ∧
    pyGet stW3.toolToServer "dup" = some "alpha" ∧
    (stW3.tools.map Prod.fst).Nodup := by
  have hnf : ∀ p ∈ (createClients envW3.cfg).mcpClients, skipServer envW3 p.1 = false →
      ∀ e, clientOutcome p.2 = .error e → fatalExn e = false := by
    intro p hp _ e he
    have hp2 : p ∈ [("alpha", (⟨clientAlpha, false⟩ : ClientState)),
        ("beta", ⟨clientBeta, false⟩)] := hp
    rcases List.mem_cons.mp hp2 with hp3 | hp3
    · subst hp3
      simp [clientOutcome, clientAlpha] at he
    · rcases List.mem_cons.mp hp3 with hp4 | hp4
      · subst hp4
        simp [clientOutcome, clientBeta] at he
      · cases hp4
  have h := claim_C3_first_backend_wins envW3 stW3 rfl (by decide) hnf rfl
  refine ⟨?_, ?_, h.1⟩
  · rw [h.2.1 "dup"]
    rfl
  · rw [h.2.2 "dup"]
    rfl

/-- Claim C5: a ToolCall whose name is not in the registry map gets a failed
ToolResult (not an exception: `callTool` is a total function into ToolResult
and reads the registry without any connection setup) whose error message
names the missing tool and lists the available tool names. -/
theorem claim_C5_tool_not_found (st : RegistryState) (tc : ToolCall)
    (h : pyGet st.toolToServer tc.name = none) :
    callTool st tc =
      { tool_name := tc.name, success := false, result := none
        error := some (toolNotFoundMsg tc.name (st.tools.map Prod.fst)) } := by
  simp only [callTool, h]
  rfl

/-- A registry with two tools, used at a missing name. -/
def stW5 : RegistryState :=
  { tools := [("faq_tool", ⟨"faq_tool", "d1", .obj []⟩),
              ("web_search", ⟨"web_search", "d2", .obj []⟩)]
    toolToServer := [("faq_tool", "s1"), ("web_search", "s2")]
    mcpClients := []
    clientInit := []
    fullyInit := true }

theorem claim_C5_tool_not_found_witness :
    (callTool stW5 ⟨"nope", .obj [], none⟩).success = false ∧
    (callTool stW5 ⟨"nope", .obj [], none⟩).error =
      some "Tool 'nope' not found. Available tools: ['faq_tool', 'web_search']" := by
  have h := claim_C5_tool_not_found stW5 ⟨"nope", .obj [], none⟩ rfl
  rw [h]
  exact ⟨rfl, by decide⟩

/-- Claim C2: an exception raised by the backend execution of a resolved tool
call is caught by `call_tool` and turned into a failed ToolResult carrying
the exception text; this holds for both registry variants
(`mcp_tools/registry.py` and `mcp/registry.py`).  Both embeddings are total
functions into ToolResult, so no exception propagates to the caller. -/
theorem claim_C2_exec_error_to_failed_result :
    (∀ (st : RegistryState) (tc : ToolCall) (sn : String) (cs : ClientState) (e : PyExn),
      pyGet st.toolToServer tc.name = some sn → sn.isEmpty = false →
      pyGet st.mcpClients sn = some cs → cs.closed = false →
      cs.spec.callResult tc.name tc.arguments = .error e →
      callTool st tc =
        { tool_name := tc.name, success := false, result := none, error := some e.msg }) ∧
    (∀ (impls : List (String × LegacyToolImpl)) (tc : ToolCall) (impl : LegacyToolImpl)
        (e : PyExn),
      pyGet impls tc.name = some impl →
      (impl.hasExecute || impl.hasCallAttr) = true →
      impl.run tc.arguments = .error e →
      legacyCallTool impls tc =
        { tool_name := tc.name, success := false, result := none, error := some e.msg }) := by
  constructor
  · intro st tc sn cs e h1 h2 h3 h4 h5
    simp [callTool, h1, h2, h3, h4, h5]
  · intro impls tc impl e h1 h2 h3
    simp [legacyCallTool, h1, h2, h3]

/-- A client whose tool call raises ValueError. -/
def clientBoom : MCPClient :=
  ⟨none, .ok [], fun _ _ => .error ⟨false, "ValueError: boom"⟩, false⟩

/-- A registry resolving tool "t" to the raising client. -/
def stW2 : RegistryState :=
  { tools := [("t", ⟨"t", "d", .obj []⟩)]
    toolToServer := [("t", "s")]
    mcpClients := [("s", ⟨clientBoom, false⟩)]
    clientInit := [("s", true)]
    fullyInit := true }

/-- A legacy implementation whose execution raises. -/
def implBoom : LegacyToolImpl :=
  ⟨true, false, fun _ => .error ⟨false, "KeyError: missing"⟩⟩

theorem claim_C2_exec_error_to_failed_result_witness :
    callTool stW2 ⟨"t", .obj [], none⟩ =
      { tool_name := "t", success := false, result := none
        error := some "ValueError: boom" } ∧
    legacyCallTool [("faq", implBoom)] ⟨"faq", .obj [], none⟩ =
      { tool_name := "faq", success := false, result := none
        error := some "KeyError: missing" } :=
  ⟨(claim_C2_exec_error_to_failed_result.1 stW2 ⟨"t", .obj [], none⟩ "s"
      ⟨clientBoom, false⟩ ⟨false, "ValueError: boom"⟩ rfl rfl rfl rfl rfl),
   (claim_C2_exec_error_to_failed_result.2 [("faq", implBoom)] ⟨"faq", .obj [], none⟩
      implBoom ⟨false, "KeyError: missing"⟩ rfl rfl rfl)⟩

/-- Claim C8: `close_all` is idempotent on the registry state (and swallows
every per-client close error by construction), and any `call_tool` issued
after `close_all` returns a ToolResult with success = false — the connection
of every resolved client is closed, an unresolved name fails, and `callTool`
never raises (it is a total function into ToolResult). -/
theorem claim_C8_close_all_idempotent_and_fails_calls :
    (∀ st : RegistryState, closeAll (closeAll st) = closeAll st) ∧
    (∀ (st : RegistryState) (tc : ToolCall), (callTool (closeAll st) tc).success = false) := by
  constructor
  · intro st
    simp only [closeAll, List.map_map]
    congr 1
  · intro st tc
    simp only [callTool]
    by_cases h1 : ((pyGet (closeAll st).toolToServer tc.name).getD "").isEmpty
    · simp [h1]
    · simp only [h1, if_false, Bool.false_eq_true]
      have hcl : pyGet (closeAll st).mcpClients
            ((pyGet (closeAll st).toolToServer tc.name).getD "") =
          (pyGet st.mcpClients ((pyGet (closeAll st).toolToServer tc.name).getD "")).map
            fun cs => ClientState.mk cs.spec true := by
        show pyGet (st.mcpClients.map fun p => (p.1, ClientState.mk p.2.spec true)) _ = _
        exact pyGet_map_snd (fun cs => ClientState.mk cs.spec true) st.mcpClients _
      rw [hcl]
      cases hg : pyGet st.mcpClients ((pyGet (closeAll st).toolToServer tc.name).getD "") with
      | none => simp
      | some cs => simp

end TravelAgent

namespace TravelAgent

/-- A backend whose connection raises a RuntimeError mentioning the MCP SDK
(the one exception class `initialize_all` re-raises). -/
def clientSdkFail : MCPClient :=
  ⟨some ⟨true, "MCP SDK not available inside client"⟩, .ok [], noCall, false⟩

/-- A configuration containing the SDK-failing backend. -/
def envC6bad : RegEnv := ⟨[⟨"delta", clientSdkFail, false, true, true⟩], true⟩

/-- Claim C6 counterexample: a backend whose initialization raises a
RuntimeError containing "MCP SDK not available" makes `initialize_all`
re-raise — the exception DOES propagate out of `initialize_all`, so the
claim's universal "the exception does not propagate" is false as stated. -/
theorem claim_C6_counterexample :
    initAll envC6bad (createClients envC6bad.cfg) =
      .error ⟨true, "MCP SDK not available inside client"⟩ := rfl

/-- Claim C6 (amended): if initializing or listing tools for one configured
backend raises an exception that is NOT a RuntimeError whose message contains
"MCP SDK not available" (such a RuntimeError is re-raised), then that backend
contributes zero tool descriptors (no tool maps to it), the exception does
not propagate out of `initialize_all` (the result is `.ok`), and the
remaining backends still proceed: the tool map equals the first-wins
aggregation over the configured backends, in which the failing backend's
contribution is empty — equivalently, the aggregation with the failing
backend filtered out. -/
theorem claim_C6_backend_failure_skipped (env : RegEnv) (kname : String) (kcs : ClientState)
    (e : PyExn)
    (hsdk : env.sdkAvailable = true)
    (hnd : ((createClients env.cfg).mcpClients.map Prod.fst).Nodup)
    (hk : (kname, kcs) ∈ (createClients env.cfg).mcpClients)
    (hke : clientOutcome kcs = .error e)
    (hkf : fatalExn e = false)
    (hnf : ∀ p ∈ (createClients env.cfg).mcpClients, skipServer env p.1 = false →
        ∀ e2, clientOutcome p.2 = .error e2 → fatalExn e2 = false) :
    ∃ st, initAll env (createClients env.cfg) = .ok st ∧
      (∀ q ∈ st.toolToServer, q.2 ≠ kname) ∧
      (∀ name, pyGet st.tools name =
        (((aggTriples env
            ((createClients env.cfg).mcpClients.filter fun p => p.1 != kname)).find?
          fun x => x.1 = name).map fun x => x.2.1)) := by
  obtain ⟨ci, hci⟩ := initAll_fresh_char env hsdk hnd hnf
  refine ⟨_, hci, ?_, ?_⟩
  · intro q hq he
    have hq2 : q ∈ (addTriples (createClients env.cfg)
        (aggTriples env (createClients env.cfg).mcpClients)).toolToServer := hq
    rcases addTriples_srv_mem _ _ _ hq2 with h2 | ⟨x, hx, hxe⟩
    · simp [createClients] at h2
    · obtain ⟨p, hp, hskip2, ts, hout, hxt⟩ := aggTriples_mem env _ x hx
      have hsv := toolTriples_mem p.1 ts x hxt
      have hpk : p.1 = kname := by
        rw [← hsv]
        rw [hxe] at he
        exact he
      have hpcs : p.2 = kcs := by
        have hp2 : (kname, p.2) ∈ (createClients env.cfg).mcpClients := by
          rw [← hpk]
          exact hp
        exact assoc_mem_unique _ hnd kname p.2 kcs hp2 hk
      rw [hpcs, hke] at hout
      cases hout
  · intro name
    have hdrop : aggTriples env (createClients env.cfg).mcpClients =
        aggTriples env ((createClients env.cfg).mcpClients.filter fun p => p.1 != kname) := by
      apply aggTriples_drop_empty
      intro p hp hpk
      by_cases hskip2 : skipServer env p.1 = true
      · simp [hskip2]
      · have hpcs : p.2 = kcs := by
          have hp2 : (kname, p.2) ∈ (createClients env.cfg).mcpClients := by
            rw [← hpk]
            exact hp
          exact assoc_mem_unique _ hnd kname p.2 kcs hp2 hk
        simp [hskip2, hpcs, hke]
    have hlook : pyGet ((addTriples (createClients env.cfg)
        (aggTriples env (createClients env.cfg).mcpClients)).tools) name =
        (((aggTriples env (createClients env.cfg).mcpClients).find?
          fun x => x.1 = name).map fun x => x.2.1) := by
      rw [addTriples_tools_get]
      rfl
    rw [← hdrop]
    exact hlook

/-- A backend whose listing raises an ordinary ValueError. -/
def clientEps : MCPClient := ⟨none, .error ⟨false, "ValueError: boom"⟩, noCall, false⟩

/-- A healthy backend exposing tool "z". -/
def clientZeta : MCPClient := ⟨none, .ok [⟨"z", "zd", .obj []⟩], noCall, false⟩

/-- A configuration with one failing and one healthy backend. -/
def envW6 : RegEnv :=
  ⟨[⟨"eps", clientEps, false, true, true⟩, ⟨"zeta", clientZeta, false, true, true⟩], true⟩

theorem claim_C6_backend_failure_skipped_witness :
    ∃ st, initAll envW6 (createClients envW6.cfg) = .ok st ∧
      (∀ q ∈ st.toolToServer, q.2 ≠ "eps") := by
  have hnf : ∀ p ∈ (createClients envW6.cfg).mcpClients, skipServer envW6 p.1 = false →
      ∀ e2, clientOutcome p.2 = .error e2 → fatalExn e2 = false := by
    intro p hp _ e2 he
    have hp2 : p ∈ [("eps", (⟨clientEps, false⟩ : ClientState)),
        ("zeta", ⟨clientZeta, false⟩)] := hp
    rcases List.mem_cons.mp hp2 with hp3 | hp3
    · subst hp3
      simp only [clientOutcome, clientEps] at he
      injection he with he2
      rw [← he2]
      rfl
    · rcases List.mem_cons.mp hp3 with hp4 | hp4
      · subst hp4
        simp [clientOutcome, clientZeta] at he
      · cases hp4
  obtain ⟨st, h1, h2, h3⟩ := claim_C6_backend_failure_skipped envW6 "eps"
    ⟨clientEps, false⟩ ⟨false, "ValueError: boom"⟩ rfl (by decide)
    (List.mem_cons_self _ _) rfl rfl hnf
  exact ⟨st, h1, h2⟩

/-- Claim C7: `reload_config` first removes every tool entry and client of the
prior configuration (its result does not depend on the prior state at all),
and after a successful reload the client map is exactly the one created from
the new configuration and every tool-to-server entry names a backend of the
new configuration. -/
theorem claim_C7_reload_reflects_new_config :
    (∀ (st1 st2 : RegistryState) (newEnv : RegEnv),
        reloadConfig st1 newEnv = reloadConfig st2 newEnv) ∧
    (∀ (st : RegistryState) (newEnv : RegEnv) (st2 : RegistryState),
        reloadConfig st newEnv = .ok st2 →
        st2.mcpClients = (createClients newEnv.cfg).mcpClients ∧
        ∀ q ∈ st2.toolToServer,
          q.2 ∈ (createClients newEnv.cfg).mcpClients.map Prod.fst) := by
  constructor
  · intro st1 st2 newEnv
    rfl
  · intro st newEnv st2 h
    cases hsdk : newEnv.sdkAvailable with
    | false =>
        rw [reloadConfig] at h
        rw [initAll] at h
        rw [hsdk] at h
        cases h
    | true =>
        rw [reloadConfig] at h
        rw [initAll] at h
        rw [hsdk] at h
        simp only [Bool.not_true, if_false, Bool.false_eq_true] at h
        constructor
        · exact initLoop_mcpClients _ _ _ _ h
        · intro q hq
          rcases initLoop_srv_from _ _ _ _ h q hq with h1 | h1
          · cases h1
          · exact h1

/-- A one-backend replacement configuration exposing tool "g". -/
def envW7 : RegEnv :=
  ⟨[⟨"gamma", ⟨none, .ok [⟨"g", "gd", .obj []⟩], noCall, false⟩, false, true, true⟩], true⟩

/-- A prior registry state holding entries of an old configuration. -/
def stOldW7 : RegistryState :=
  { tools := [("old", ⟨"old", "od", .obj []⟩)]
    toolToServer := [("old", "oldsrv")]
    mcpClients := []
    clientInit := []
    fullyInit := true }

/-- The state after reloading `stOldW7` with `envW7`. -/
def stNewW7 : RegistryState :=
  match reloadConfig stOldW7 envW7 with
  | .ok st => st
  | .error _ => ⟨[], [], [], [], false⟩

theorem claim_C7_reload_reflects_new_config_witness :
    stNewW7.mcpClients = (createClients envW7.cfg).mcpClients ∧
    "gamma" ∈ (createClients envW7.cfg).mcpClients.map Prod.fst := by
  have h := claim_C7_reload_reflects_new_config.2 stOldW7 envW7 stNewW7 rfl
  refine ⟨h.1, ?_⟩
  apply h.2 ("g", "gamma")
  rw [show stNewW7.toolToServer = [("g", "gamma")] from rfl]
  exact List.mem_singleton.mpr rfl

end TravelAgent

namespace TravelAgent

/-- Detection-call count of a step result. -/
def resDetect : StepRes → Nat
  | .halt r => r.detectCalls
  | .next st => st.detectCalls

/-- Iteration count of a step result. -/
def resIter : StepRes → Nat
  | .halt r => r.iterations
  | .next st => st.iteration

theorem doneChecksStep_detect (st : LoopSt) (i : Nat) :
    resDetect (doneChecksStep st i) = st.detectCalls := by
  unfold doneChecksStep
  split
  · rfl
  · split
    · rfl
    · rfl

theorem doneChecksStep_iter (st : LoopSt) (i : Nat) :
    resIter (doneChecksStep st i) = i := by
  unfold doneChecksStep
  split
  · rfl
  · split
    · rfl
    · rfl

theorem normalStreamingStep_detect (env : ChatEnv) (functions : List FuncDef)
    (st : LoopSt) (i : Nat) :
    resDetect (normalStreamingStep env functions st i) = st.detectCalls := by
  unfold normalStreamingStep
  split
  · split
    · cases env.streamErr st.streamCalls with
      | some e => rfl
      | none =>
          dsimp only
          split
          · rfl
          · split
            · rfl
            · rw [doneChecksStep_detect]
    · rw [doneChecksStep_detect]
  · rw [doneChecksStep_detect]

theorem normalStreamingStep_iter (env : ChatEnv) (functions : List FuncDef)
    (st : LoopSt) (i : Nat) :
    resIter (normalStreamingStep env functions st i) = i := by
  unfold normalStreamingStep
  split
  · split
    · cases env.streamErr st.streamCalls with
      | some e => rfl
      | none =>
          dsimp only
          split
          · rfl
          · split
            · rfl
            · rw [doneChecksStep_iter]
    · rw [doneChecksStep_iter]
  · rw [doneChecksStep_iter]

theorem chatStep_detect (env : ChatEnv) (functions : List FuncDef) (st : LoopSt) :
    resDetect (chatStep env functions st) ≤ st.detectCalls + 1 := by
  unfold chatStep
  dsimp only
  split
  · cases env.detect st.detectCalls with
    | raise e => exact Nat.le_refl _
    | ok oqd =>
        cases oqd with
        | none =>
            rw [normalStreamingStep_detect]
        | some qd =>
            dsimp only
            split
            · cases env.execErr st.execCalls with
              | some e => exact Nat.le_refl _
              | none => exact Nat.le_refl _
            · split
              · cases env.streamErr st.streamCalls with
                | some e => exact Nat.le_refl _
                | none => exact Nat.le_refl _
              · rw [normalStreamingStep_detect]
  · rw [normalStreamingStep_detect]
    exact Nat.le_succ _

theorem chatStep_iter (env : ChatEnv) (functions : List FuncDef) (st : LoopSt) :
    resIter (chatStep env functions st) = st.iteration + 1 := by
  unfold chatStep
  dsimp only
  split
  · cases env.detect st.detectCalls with
    | raise e => rfl
    | ok oqd =>
        cases oqd with
        | none => rw [normalStreamingStep_iter]
        | some qd =>
            dsimp only
            split
            · cases env.execErr st.execCalls with
              | some e => rfl
              | none => rfl
            · split
              · cases env.streamErr st.streamCalls with
                | some e => rfl
                | none => rfl
              · rw [normalStreamingStep_iter]
  · rw [normalStreamingStep_iter]

theorem chatLoop_bound (env : ChatEnv) (functions : List FuncDef) (fuel : Nat) :
    ∀ st : LoopSt,
      (chatLoop env functions fuel st).detectCalls ≤ st.detectCalls + fuel ∧
      (chatLoop env functions fuel st).iterations ≤ st.iteration + fuel := by
  induction fuel with
  | zero =>
      intro st
      exact ⟨Nat.le_refl _, Nat.le_refl _⟩
  | succ fuel ih =>
      intro st
      rw [chatLoop]
      split
      · cases hs : chatStep env functions st with
        | halt r =>
            have hd := chatStep_detect env functions st
            have hi := chatStep_iter env functions st
            rw [hs] at hd hi
            simp only [resDetect, resIter] at hd hi
            dsimp only
            exact ⟨by omega, by omega⟩
        | next st2 =>
            have hd := chatStep_detect env functions st
            have hi := chatStep_iter env functions st
            rw [hs] at hd hi
            simp only [resDetect, resIter] at hd hi
            have := ih st2
            dsimp only
            exact ⟨by omega, by omega⟩
      · dsimp only
        exact ⟨by omega, by omega⟩

/-- Claim C1: for every collaborator behaviour (every sequence of
tool-detection responses, tool-execution outcomes and stream contents —
including detection always returning tool calls), one invocation of
`chat_stream` calls the detection operation at most `max_tool_iterations = 4`
times, and runs at most 4 loop iterations.  The event stream is a `List`
produced by a total function, so it is finite: the loop always terminates. -/
theorem claim_C1_bounded_detection (fmtFiles : Option (List FileDict) → String)
    (env : ChatEnv) (functions : List FuncDef) (req : ChatRequest) :
    (chat_stream fmtFiles env functions req).detectCalls ≤ maxToolIterations ∧
    (chat_stream fmtFiles env functions req).iterations ≤ maxToolIterations := by
  unfold chat_stream
  dsimp only
  split
  · exact ⟨by decide, by decide⟩
  · have := chatLoop_bound env functions maxToolIterations
      ⟨0, 0, 0, 0, "", prepare_messages fmtFiles req, []⟩
    exact ⟨this.1, this.2⟩

end TravelAgent

namespace TravelAgent

theorem chatLoop_spin (env : ChatEnv) (functions : List FuncDef)
    (hf : functions.isEmpty = false) (hexec : ∀ n, env.execErr n = none) :
    ∀ (k : Nat) (st : LoopSt),
      st.iteration + k = maxToolIterations →
      st.execCalls = st.detectCalls →
      (∀ n, st.detectCalls ≤ n → n < st.detectCalls + k →
        ∃ qd, env.detect n = .ok (some qd) ∧ qd.tool_calls.isEmpty = false) →
      chatLoop env functions k st =
        ⟨st.events ++
            ((List.range k).map fun j => env.execEvents (st.execCalls + j)).flatten,
          st.detectCalls + k, maxToolIterations⟩ := by
  intro k
  induction k with
  | zero =>
      intro st hiter _ _
      rw [chatLoop]
      simp [← hiter]
  | succ k ih =>
      intro st hiter hsync hdet
      obtain ⟨qd, hqd, hqe⟩ := hdet st.detectCalls (Nat.le_refl _) (by omega)
      have hcond : (!functions.isEmpty &&
          decide (st.iteration + 1 ≤ maxToolIterations)) = true := by
        rw [hf]
        simp
        omega
      have hstep : chatStep env functions st = .next
          { iteration := st.iteration + 1
            detectCalls := st.detectCalls + 1
            streamCalls := st.streamCalls
            execCalls := st.execCalls + 1
            accumulated := st.accumulated
            messages := st.messages ++ env.execAppend st.execCalls
            events := st.events ++ env.execEvents st.execCalls } := by
        simp [chatStep, hqd, hqe, hexec, hf,
          show st.iteration + 1 ≤ maxToolIterations by omega]
      rw [chatLoop]
      rw [if_pos (show st.iteration < maxToolIterations by omega)]
      rw [hstep]
      dsimp only
      rw [ih _ (by dsimp only; omega) (by dsimp only; omega)
        (by
          dsimp only
          intro n h1 h2
          exact hdet n (by omega) (by omega))]
      dsimp only
      have hev : ((List.range (k + 1)).map fun j =>
          env.execEvents (st.execCalls + j)).flatten =
          env.execEvents st.execCalls ++
            ((List.range k).map fun j => env.execEvents (st.execCalls + 1 + j)).flatten := by
        rw [List.range_succ_eq_map]
        simp only [List.map_cons, List.map_map, List.flatten_cons, Nat.add_zero]
        congr 1
        congr 1
        apply List.map_congr_left
        intro j _
        simp only [Function.comp]
        congr 1
        omega
      rw [hev, ← List.append_assoc]
      congr 1
      omega

/-- Detection response with one tool call, used for the C4 scenario. -/
def tcC4 : ToolCall := ⟨"searchTool", .obj [("query", .str "q")], none⟩

/-- An environment in which every detection call returns a tool call. -/
def envC4 : ChatEnv :=
  { detect := fun _ => .ok (some ⟨"", [tcC4]⟩)
    execEvents := fun _ =>
      [.toolCallStart "searchTool" "", .toolCallEnd "searchTool" "ok"]
    execAppend := fun _ =>
      [{ role := some "assistant", content := some "" },
       { role := some "tool", content := some "result" }]
    execErr := fun _ => none
    streamChunks := fun _ => []
    streamErr := fun _ => none }

/-- One available function definition for the C4 scenario. -/
def fnsC4 : List FuncDef := [⟨"searchTool", "a search tool", .obj []⟩]

/-- A one-message request for the C4 scenario. -/
def reqC4 : ChatRequest := { message := some "hi" }

/-- The trivial files formatter for the C4 scenario. -/
def fmtC4 : Option (List FileDict) → String := fun _ => ""

/-- Claim C4 counterexample: with `max_iterations = 4` and detection always
returning a non-empty tool-calls list, `chat_stream` terminates after exactly
4 iterations (4 detection calls) but its event stream consists solely of the
tool-execution events — it contains NO chunk at all, in particular neither
the "tried but found nothing" fallback chunk nor the generic fallback chunk,
contradicting the claim that the fallback chunk is emitted. -/
theorem claim_C4_counterexample :
    (chat_stream fmtC4 envC4 fnsC4 reqC4).detectCalls = 4 ∧
    (chat_stream fmtC4 envC4 fnsC4 reqC4).iterations = 4 ∧
    (chat_stream fmtC4 envC4 fnsC4 reqC4).events =
      [.toolCallStart "searchTool" "", .toolCallEnd "searchTool" "ok",
       .toolCallStart "searchTool" "", .toolCallEnd "searchTool" "ok",
       .toolCallStart "searchTool" "", .toolCallEnd "searchTool" "ok",
       .toolCallStart "searchTool" "", .toolCallEnd "searchTool" "ok"] ∧
    ChatEvent.chunk fallbackNoInfo ∉ (chat_stream fmtC4 envC4 fnsC4 reqC4).events ∧
    ChatEvent.chunk fallbackGeneric ∉ (chat_stream fmtC4 envC4 fnsC4 reqC4).events :=
  ⟨rfl, rfl, rfl, by decide, by decide⟩

/-- Claim C4 (amended): if `max_iterations` is 4 and every detection call
returns a non-empty tool_calls list (and tool execution itself does not
raise), then `chat_stream` terminates after exactly 4 iterations and 4
detection calls — so the caller receives its `done` event — but the events
are exactly the tool-execution events of the 4 iterations: the
"tried but found nothing" fallback chunk is NOT emitted on this path (it is
emitted only when a final-iteration detection yields neither tool calls nor
content). -/
theorem claim_C4_max_iterations_no_fallback (env : ChatEnv) (functions : List FuncDef)
    (fmtFiles : Option (List FileDict) → String) (req : ChatRequest)
    (hf : functions.isEmpty = false)
    (hm : (prepare_messages fmtFiles req).isEmpty = false)
    (hdet : ∀ n, n < maxToolIterations →
      ∃ qd, env.detect n = .ok (some qd) ∧ qd.tool_calls.isEmpty = false)
    (hexec : ∀ n, env.execErr n = none) :
    (chat_stream fmtFiles env functions req).detectCalls = 4 ∧
    (chat_stream fmtFiles env functions req).iterations = 4 ∧
    (chat_stream fmtFiles env functions req).events =
      ((List.range 4).map env.execEvents).flatten := by
  unfold chat_stream
  dsimp only
  rw [if_neg (by rw [hm]; exact Bool.false_ne_true)]
  rw [chatLoop_spin env functions hf hexec maxToolIterations
    ⟨0, 0, 0, 0, "", prepare_messages fmtFiles req, []⟩ rfl rfl
    (by
      intro n h1 h2
      apply hdet n
      dsimp only at h1 h2
      omega)]
  refine ⟨rfl, rfl, ?_⟩
  dsimp only
  rw [List.nil_append]
  rfl

theorem claim_C4_max_iterations_no_fallback_witness :
    (chat_stream fmtC4 envC4 fnsC4 reqC4).detectCalls = 4 ∧
    (chat_stream fmtC4 envC4 fnsC4 reqC4).events =
      ((List.range 4).map envC4.execEvents).flatten := by
  have h := claim_C4_max_iterations_no_fallback envC4 fnsC4 fmtC4 reqC4 rfl rfl
    (fun n _ => ⟨⟨"", [tcC4]⟩, rfl, rfl⟩) (fun n => rfl)
  exact ⟨h.1, h.2.2⟩

end TravelAgent

namespace TravelAgent

/-- The invariant of every message produced by `prepare_messages`: a clean
user/assistant dict with string content and no tool linkage fields. -/
def cleanMsg (m : PyMsg) : Prop :=
  (m.role = some "user" ∨ m.role = some "assistant") ∧ (∃ s, m.content = some s) ∧
    m.tool_calls = none ∧ m.tool_call_id = none ∧ m.name = none

theorem filterHistory_mem (msgs : List PyMsg) (m : PyMsg)
    (hm : m ∈ filterHistory msgs) : cleanMsg m := by
  simp only [filterHistory, List.mem_filterMap] at hm
  obtain ⟨orig, _, he⟩ := hm
  by_cases h : (decide (orig.role.getD "" = "user") ||
      decide (orig.role.getD "" = "assistant")) = true
  · rw [if_pos h] at he
    injection he with he
    subst he
    rcases Bool.or_eq_true_iff.mp h with h1 | h1
    · refine ⟨Or.inl ?_, ⟨_, rfl⟩, rfl, rfl, rfl⟩
      rw [of_decide_eq_true h1]
    · refine ⟨Or.inr ?_, ⟨_, rfl⟩, rfl, rfl, rfl⟩
      rw [of_decide_eq_true h1]
  · rw [if_neg h] at he
    cases he

theorem pySliceFrom_mem {α : Type} (i : Int) (xs : List α) (m : α)
    (hm : m ∈ pySliceFrom i xs) : m ∈ xs := by
  unfold pySliceFrom at hm
  split at hm
  · exact List.mem_of_mem_drop hm
  · exact List.mem_of_mem_drop hm

theorem trim_history_mem (msgs : List PyMsg) (mt : Nat) (m : PyMsg)
    (hm : m ∈ trim_history msgs mt) : m ∈ msgs := by
  unfold trim_history at hm
  split at hm
  · exact hm
  · split at hm
    · exact pySliceFrom_mem _ _ _ hm
    · split at hm
      · rcases List.mem_append.mp hm with h1 | h1
        · rw [List.mem_singleton.mp h1]
          exact List.mem_cons_self _ _
        · exact pySliceFrom_mem _ _ _ h1
      · exact pySliceFrom_mem _ _ _ hm

theorem prepInput_mem (A : List PyMsg) (u : String) (m : PyMsg)
    (hA : ∀ x ∈ A, cleanMsg x)
    (hm : m ∈ if !u.isEmpty then A ++ [{ role := some "user", content := some u }] else A) :
    cleanMsg m := by
  split at hm
  · rcases List.mem_append.mp hm with h1 | h1
    · exact hA _ h1
    · rw [List.mem_singleton.mp h1]
      exact ⟨Or.inl rfl, ⟨_, rfl⟩, rfl, rfl, rfl⟩
  · exact hA _ hm

theorem prepare_messages_mem (fmtFiles : Option (List FileDict) → String)
    (req : ChatRequest) (m : PyMsg) (hm : m ∈ prepare_messages fmtFiles req) :
    cleanMsg m := by
  unfold prepare_messages at hm
  have hm2 := trim_history_mem _ _ _ hm
  exact prepInput_mem _ _ _ (fun x hx => filterHistory_mem _ _ hx) hm2

theorem trim_clean_length (inp : List PyMsg) (hclean : ∀ m ∈ inp, cleanMsg m) :
    (trim_history inp MAX_CONVERSATION_TURNS).length ≤ MAX_CONVERSATION_TURNS := by
  unfold trim_history
  split
  · omega
  · rename_i hlen
    have hne : inp ≠ [] := by
      intro h
      rw [h] at hlen
      exact hlen (by simp [MAX_CONVERSATION_TURNS])
    obtain ⟨m0, rest, rfl⟩ := List.exists_cons_of_ne_nil hne
    have hm0 : (m0.role == some "system") = false := by
      rcases (hclean m0 (List.mem_cons_self _ _)).1 with h1 | h1 <;> rw [h1] <;> rfl
    dsimp only
    rw [hm0]
    simp only [Bool.false_eq_true, if_false]
    unfold pySliceFrom
    rw [if_neg (by decide)]
    rw [List.length_drop]
    have h10 : ((-(-(MAX_CONVERSATION_TURNS : Int))).toNat) = MAX_CONVERSATION_TURNS := by
      decide
    rw [h10]
    omega

theorem prepare_messages_length (fmtFiles : Option (List FileDict) → String)
    (req : ChatRequest) :
    (prepare_messages fmtFiles req).length ≤ MAX_CONVERSATION_TURNS := by
  unfold prepare_messages
  exact trim_clean_length _
    (fun m hm => prepInput_mem _ _ _ (fun x hx => filterHistory_mem _ _ hx) hm)

/-- Claim C10: every message returned by `prepare_messages` has role "user"
or "assistant", a string content, and no tool linkage fields (`tool_calls`,
`tool_call_id`, `name` — all tool-role messages of the incoming history are
dropped); the returned list has at most `MAX_CONVERSATION_TURNS` entries; and
`trim_history` preserves a leading system message.  (The constant's value is
modelled from the spec since `app/utils/constants.py` is not under src/; the
bound holds for the modelled positive value.) -/
theorem claim_C10_prepare_messages_clean (fmtFiles : Option (List FileDict) → String)
    (req : ChatRequest) :
    (prepare_messages fmtFiles req).length ≤ MAX_CONVERSATION_TURNS ∧
    (∀ m ∈ prepare_messages fmtFiles req, cleanMsg m) ∧
    (∀ (msgs : List PyMsg) (mt : Nat) (m0 : PyMsg) (rest : List PyMsg),
      msgs = m0 :: rest → m0.role = some "system" →
      (trim_history msgs mt).head? = some m0) := by
  refine ⟨prepare_messages_length fmtFiles req,
    fun m hm => prepare_messages_mem fmtFiles req m hm, ?_⟩
  intro msgs mt m0 rest he hsys
  subst he
  unfold trim_history
  split
  · rfl
  · dsimp only
    rw [show (m0.role == some "system") = true by rw [hsys]; rfl]
    simp only [if_true]
    rfl

/-- The trivial files formatter for the C10 instance. -/
def fmtW10 : Option (List FileDict) → String := fun _ => ""

/-- A request whose history holds a tool-role message (to be dropped). -/
def reqW10 : ChatRequest :=
  { message := some "hello"
    messages := some [{ role := some "tool", content := some "t", tool_call_id := some "1" }] }

/-- A leading system message for the trim instance. -/
def sysW10 : PyMsg := { role := some "system", content := some "sys" }

/-- A user message following the system message. -/
def usrW10 : PyMsg := { role := some "user", content := some "u" }

theorem claim_C10_prepare_messages_clean_witness :
    (prepare_messages fmtW10 reqW10).length ≤ MAX_CONVERSATION_TURNS ∧
    (({ role := some "user", content := some "hello" } : PyMsg).tool_calls = none ∧
      ({ role := some "user", content := some "hello" } : PyMsg).tool_call_id = none ∧
      ({ role := some "user", content := some "hello" } : PyMsg).name = none) ∧
    (trim_history [sysW10, usrW10] 1).head? = some sysW10 := by
  have h := claim_C10_prepare_messages_clean fmtW10 reqW10
  refine ⟨h.1, ?_, ?_⟩
  · have hm : ({ role := some "user", content := some "hello" } : PyMsg) ∈
        prepare_messages fmtW10 reqW10 := by
      rw [show prepare_messages fmtW10 reqW10 =
        [{ role := some "user", content := some "hello" }] from rfl]
      exact List.mem_singleton.mpr rfl
    exact (h.2.1 _ hm).2.2
  · exact h.2.2 [sysW10, usrW10] 1 sysW10 [usrW10] rfl rfl

end TravelAgent

namespace TravelAgent

theorem strAppend_ne (p1 p2 s1 s2 : String)
    (hlen : p1.data.length = p2.data.length) (hne : p1 ≠ p2) :
    p1 ++ s1 ≠ p2 ++ s2 := by
  intro h
  apply hne
  have hd := congrArg String.data h
  rw [String.data_append, String.data_append] at hd
  have h2 := (List.append_inj hd hlen).1
  cases p1 with
  | mk d1 =>
      cases p2 with
      | mk d2 => exact congrArg String.mk h2

/-- Claim C9: `format_tool_result_for_llm` normalizes backend values:
(1) a string input is returned unchanged; (2) a mapping with a string "text"
field is unwrapped to that field; (3) a mapping whose "answers" list is empty
yields the explicit "Tool result: ... / Suggestion: ..." no-information
message; (4) a mapping whose "results" list is empty yields the explicit
Chinese no-information message; (5) a mapping with none of the special keys
is serialized generically as JSON; (6) the empty-results message differs
from the formatting of any nonempty "results" value; (7) a nonempty
"answers" value formats with the success header, which never coincides with
a "Tool result: ..." no-information message. -/
theorem claim_C9_formatter_normalization :
    (∀ (s tn : String), format_tool_result_for_llm (.str s) tn = .ok (.str s)) ∧
    (∀ (entries : List (String × PyVal)) (tn s : String),
      pyGet entries "text" = some (.str s) →
      format_tool_result_for_llm (.obj entries) tn = .ok (.str s)) ∧
    (∀ (entries : List (String × PyVal)) (tn : String),
      pyGet entries "text" = none →
      pyGet entries "answers" = some (.arr []) →
      pyGet entries "message" = none →
      format_tool_result_for_llm (.obj entries) tn =
        .ok (.str ("Tool result: " ++ "No matching answers found in FAQ database." ++
          noAnswersSuggestion))) ∧
    (∀ (entries : List (String × PyVal)) (tn : String),
      pyGet entries "text" = none →
      pyGet entries "answers" = none →
      pyGet entries "answer" = none →
      pyGet entries "found" = none →
      pyGet entries "results" = some (.arr []) →
      format_tool_result_for_llm (.obj entries) tn = .ok (.str noResultsZh)) ∧
    (∀ (entries : List (String × PyVal)) (tn : String),
      pyGet entries "text" = none →
      pyGet entries "answers" = none →
      pyGet entries "answer" = none →
      pyGet entries "found" = none →
      pyGet entries "results" = none →
      format_tool_result_for_llm (.obj entries) tn =
        .ok (.str (jsonDumps (.obj entries)))) ∧
    (∀ (entries : List (String × PyVal)) (tn : String) (w : PyVal) (ws : List PyVal),
      pyGet entries "text" = none →
      pyGet entries "answers" = none →
      pyGet entries "answer" = none →
      pyGet entries "found" = none →
      pyGet entries "results" = some (.arr (w :: ws)) →
      format_tool_result_for_llm (.obj entries) tn ≠ .ok (.str noResultsZh)) ∧
    (∀ (entries : List (String × PyVal)) (tn : String) (a0 : PyVal) (as2 : List PyVal)
        (atext : String),
      pyGet entries "text" = none →
      pyGet entries "answers" = some (.arr (a0 :: as2)) →
      pyGet entries "count" = none →
      formatAnswerItems 1 (a0 :: as2) = .ok atext →
      format_tool_result_for_llm (.obj entries) tn =
        .ok (.str (answersSuccessHeader ++ atext ++ answersSuccessTail)) ∧
      ∀ mtext : String,
        answersSuccessHeader ++ atext ++ answersSuccessTail ≠ "Tool result: " ++ mtext) := by
  refine ⟨?_, ?_, ?_, ?_, ?_, ?_, ?_⟩
  · intro s tn
    rfl
  · intro entries tn s h1
    simp only [format_tool_result_for_llm]
    rw [h1]
    rfl
  · intro entries tn h1 h2 h3
    simp only [format_tool_result_for_llm]
    rw [h1, h2, h3]
    rfl
  · intro entries tn h1 h2 h3 h4 h5
    simp only [format_tool_result_for_llm]
    rw [h1, h2, h3, h4, h5]
    rfl
  · intro entries tn h1 h2 h3 h4 h5
    simp only [format_tool_result_for_llm]
    rw [h1, h2, h3, h4, h5]
    rfl
  · intro entries tn w ws h1 h2 h3 h4 h5
    have hfmt : format_tool_result_for_llm (.obj entries) tn =
        .ok (.str (resultsSuccessHeader ++ jsonDumps2 0 (.arr (w :: ws)) ++
          resultsSuccessTail)) := by
      simp only [format_tool_result_for_llm]
      rw [h1, h2, h3, h4, h5]
      rfl
    rw [hfmt]
    intro h
    injection h with h
    injection h with h
    have hsplit1 : (resultsSuccessHeader ++ jsonDumps2 0 (.arr (w :: ws))) ++
        resultsSuccessTail =
        "工具返回的结果（" ++ ("必须严格基于此结果回答，不要添加其他信息）：\n\n" ++
          (jsonDumps2 0 (.arr (w :: ws)) ++ resultsSuccessTail)) := by
      rw [show resultsSuccessHeader =
        "工具返回的结果（" ++ "必须严格基于此结果回答，不要添加其他信息）：\n\n" by decide]
      rw [String.append_assoc, String.append_assoc]
    have hsplit2 : noResultsZh =
        "工具返回的结果：" ++ "在知识库中没有找到相关信息。\n\n【重要提示】由于工具没有找到相关信息，你必须：\n1. 明确告诉用户工具没有找到相关信息\n2. 不要编造或猜测答案\n3. 如果还有其他工具可用，可以建议尝试其他工具\n4. 如果所有工具都没有找到有用信息，提醒用户联系Harry获取更具体的帮助" := by
      decide
    rw [hsplit1, hsplit2] at h
    exact strAppend_ne _ _ _ _ (by decide) (by decide) h
  · intro entries tn a0 as2 atext h1 h2 h3 h4
    constructor
    · have hstep : format_tool_result_for_llm (.obj entries) tn =
          (formatAnswerItems 1 (a0 :: as2)).bind fun t =>
            Except.ok (.str (answersSuccessHeader ++ t ++ answersSuccessTail)) := by
        simp only [format_tool_result_for_llm]
        rw [h1, h2, h3]
        rfl
      rw [hstep, h4]
      rfl
    · intro mtext
      intro h
      have hsplit1 : (answersSuccessHeader ++ atext) ++ answersSuccessTail =
          "Tool ret" ++ ("urned results (you must strictly base your answer on these results, do not add other information):\n\n" ++ (atext ++ answersSuccessTail)) := by
        rw [show answersSuccessHeader = "Tool ret" ++
          "urned results (you must strictly base your answer on these results, do not add other information):\n\n" by decide]
        rw [String.append_assoc, String.append_assoc]
      have hsplit2 : "Tool result: " ++ mtext = "Tool res" ++ ("ult: " ++ mtext) := by
        rw [show ("Tool result: " : String) = "Tool res" ++ "ult: " by decide]
        rw [String.append_assoc]
      rw [hsplit1, hsplit2] at h
      exact strAppend_ne _ _ _ _ (by decide) (by decide) h

end TravelAgent

namespace TravelAgent

theorem claim_C9_formatter_normalization_witness :
    format_tool_result_for_llm (.str "plain") "t" = .ok (.str "plain") ∧
    format_tool_result_for_llm (.obj [("text", .str "wrapped")]) "t" = .ok (.str "wrapped") ∧
    format_tool_result_for_llm (.obj [("answers", .arr [])]) "t" =
      .ok (.str ("Tool result: " ++ "No matching answers found in FAQ database." ++
        noAnswersSuggestion)) ∧
    format_tool_result_for_llm (.obj [("results", .arr [])]) "t" = .ok (.str noResultsZh) ∧
    format_tool_result_for_llm (.obj [("status", .str "ok")]) "t" =
      .ok (.str (jsonDumps (.obj [("status", .str "ok")]))) ∧
    format_tool_result_for_llm (.obj [("results", .arr [.str "hit"])]) "t" ≠
      .ok (.str noResultsZh) ∧
    format_tool_result_for_llm
        (.obj [("answers", .arr [.obj [("answer", .str "A"), ("score", .num 1)]])]) "t" =
      .ok (.str (answersSuccessHeader ++ "\n--- Result 1 (Score: 1.00) ---\nAnswer: A\n" ++
        answersSuccessTail)) := by
  have h := claim_C9_formatter_normalization
  exact ⟨h.1 "plain" "t",
    h.2.1 _ "t" "wrapped" rfl,
    h.2.2.1 _ "t" rfl rfl rfl,
    h.2.2.2.1 _ "t" rfl rfl rfl rfl rfl,
    h.2.2.2.2.1 _ "t" rfl rfl rfl rfl rfl,
    h.2.2.2.2.2.1 _ "t" (.str "hit") [] rfl rfl rfl rfl rfl,
    (h.2.2.2.2.2.2 [("answers", .arr [.obj [("answer", .str "A"), ("score", .num 1)]])]
      "t" (.obj [("answer", .str "A"), ("score", .num 1)]) []
      "\n--- Result 1 (Score: 1.00) ---\nAnswer: A\n" rfl rfl rfl rfl).1⟩

end TravelAgent
